import Mathlib

/-!
# Asteroids lab: a shallow embedding of `Main.cpp`

The simulation core of `Main.cpp` is embedded as pure functions over explicit state.

Conventions of the embedding:

* `float` values are exact rationals (`ℚ`); `int` values are `Int` (no statement below depends
  on wrap-around).
* `Vector2Distance a b < r` is expressed as `0 < r ∧ |a - b|² < r²`, which is the same
  condition over the reals (lemma `distLt_iff_sqrt_lt`).
* Values drawn from `rand()` / `GetRandomValue`, key states and the frame time are inputs.
* A `std::vector` is a `List`; an iterator is an index into it.  Reading the element at an
  index that is not below the length (the past-the-end iterator) is undefined behaviour and
  is modelled by `none`.
-/

namespace Lab1

/-! ## Geometry -/

/-- The raylib `Vector2`, with exact coordinates. -/
structure Vector2 where
  x : ℚ
  y : ℚ
  deriving DecidableEq, Repr

/-- Componentwise sum, `Vector2Add`. -/
def Vector2Add (a b : Vector2) : Vector2 := ⟨a.x + b.x, a.y + b.y⟩

/-- Scaling, `Vector2Scale`. -/
def Vector2Scale (v : Vector2) (s : ℚ) : Vector2 := ⟨v.x * s, v.y * s⟩

/-- Square of `Vector2Distance a b`. -/
def distSq (a b : Vector2) : ℚ := (a.x - b.x) * (a.x - b.x) + (a.y - b.y) * (a.y - b.y)

/-- The test `Vector2Distance a b < r`: the distance is a non-negative square root, so the
test holds exactly when `r` is positive and the squared distance is below `r * r`. -/
def distLt (a b : Vector2) (r : ℚ) : Bool := decide (0 < r) && decide (distSq a b < r * r)

/-- The helper `Utils::RandomFloat(min, max)`, where `u` stands for `rand() / RAND_MAX`. -/
def RandomFloat (min max u : ℚ) : ℚ := min + u * (max - min)

/-- Rotation of `v` by the angle whose cosine and sine are `c` and `s`: this is what
`Vector2Scale(Vector2Rotate(Vector2Normalize(v), angle), Vector2Length(v))` evaluates to in
exact arithmetic (normalising and rescaling by the length cancel, and the zero vector stays
zero). -/
def rotateKeepLength (v : Vector2) (c s : ℚ) : Vector2 := ⟨v.x * c - v.y * s, v.x * s + v.y * c⟩

/-! ## Asteroids -/

/-- Selector `enum class AsteroidShape { TRIANGLE = 3, SQUARE = 4, PENTAGON = 5, RANDOM = 0 }`. -/
inductive AsteroidShape where
  | TRIANGLE
  | SQUARE
  | PENTAGON
  | RANDOM
  deriving DecidableEq, Repr

/-- An `Asteroid` object: `transform`, `physics`, `render.size` (as its `int` value) and
`baseDamage`.  `sides` records the dynamic class (3, 4 or 5 sides drawn). -/
structure Asteroid where
  position : Vector2
  rotation : ℚ
  velocity : Vector2
  rotationSpeed : ℚ
  size : Int
  baseDamage : Int
  sides : Nat
  deriving DecidableEq, Repr

/-- The random draws consumed by one call of `MakeAsteroid`. -/
structure AsteroidRolls where
  /-- Value of `GetRandomValue(0, 2)` of the `default` branch of `MakeAsteroid`. -/
  shape : Fin 3
  /-- Value of `GetRandomValue(0, 2)` of `init`, the exponent of the size. -/
  size : Fin 3
  /-- Value of `GetRandomValue(0, 3)` of `init`, the edge. -/
  edge : Fin 4
  /-- Value of `rand() / RAND_MAX` for the coordinate along the edge. -/
  edgeU : ℚ
  /-- The unit vector `Vector2Normalize(center - position)`; `center` is built with `cosf` and
  `sinf` of a random angle, so the normalised direction is taken as an input. -/
  dir : Vector2
  /-- Value of `rand() / RAND_MAX` for the speed. -/
  speedU : ℚ
  /-- Value of `rand() / RAND_MAX` for the rotation speed. -/
  rotSpeedU : ℚ
  /-- Value of `rand() / RAND_MAX` for the initial rotation. -/
  rotationU : ℚ
  deriving DecidableEq, Repr

namespace Asteroid

/-- Constant `SPEED_MIN`. -/
def SPEED_MIN : ℚ := 125
/-- Constant `SPEED_MAX`. -/
def SPEED_MAX : ℚ := 250
/-- Constant `ROT_MIN`. -/
def ROT_MIN : ℚ := 50
/-- Constant `ROT_MAX`. -/
def ROT_MAX : ℚ := 240

/-- Method `GetPosition`. -/
def GetPosition (a : Asteroid) : Vector2 := a.position

/-- Method `GetRadius`: `16.f * (float)render.size`. -/
def GetRadius (a : Asteroid) : ℚ := 16 * (a.size : ℚ)

/-- Method `GetDamage`: `baseDamage * static_cast<int>(render.size)`. -/
def GetDamage (a : Asteroid) : Int := a.baseDamage * a.size

/-- Method `GetSize`. -/
def GetSize (a : Asteroid) : Int := a.size

/-- Method `IncreaseSpeed(percent)`. -/
def IncreaseSpeed (a : Asteroid) (percent : ℚ) : Asteroid :=
  { a with velocity := Vector2Scale a.velocity (1 + percent / 100) }

/-- The edge position chosen by the `switch` of `init`, for an asteroid of radius `r`. -/
def edgePosition (screenW screenH : Int) (r : ℚ) (edge : Fin 4) (u : ℚ) : Vector2 :=
  match edge with
  | 0 => ⟨RandomFloat 0 screenW u, -r⟩
  | 1 => ⟨screenW + r, RandomFloat 0 screenH u⟩
  | 2 => ⟨RandomFloat 0 screenW u, screenH + r⟩
  | _ => ⟨-r, RandomFloat 0 screenH u⟩

/-- The protected `init(screenW, screenH)`, run by the base constructor while `baseDamage`
still holds its initialiser `0`. -/
def init (screenW screenH : Int) (r : AsteroidRolls) (sides : Nat) : Asteroid :=
  let size : Int := ((1 <<< r.size.val : Nat) : Int)
  let radius : ℚ := 16 * (size : ℚ)
  { position := edgePosition screenW screenH radius r.edge r.edgeU
    rotation := RandomFloat 0 360 r.rotationU
    velocity := Vector2Scale r.dir (RandomFloat SPEED_MIN SPEED_MAX r.speedU)
    rotationSpeed := RandomFloat ROT_MIN ROT_MAX r.rotSpeedU
    size := size
    baseDamage := 0
    sides := sides }

/-- Method `Update(dt)`: the moved asteroid and whether it is still inside the padded
viewport (`false` asks for removal). -/
def Update (screenW screenH : Int) (a : Asteroid) (dt : ℚ) : Asteroid × Bool :=
  let a1 : Asteroid :=
    { a with
      position := Vector2Add a.position (Vector2Scale a.velocity dt)
      rotation := a.rotation + a.rotationSpeed * dt }
  if a1.position.x < -a1.GetRadius ∨ a1.position.x > screenW + a1.GetRadius ∨
      a1.position.y < -a1.GetRadius ∨ a1.position.y > screenH + a1.GetRadius then
    (a1, false)
  else
    (a1, true)

end Asteroid

/-- Constructor of `TriangleAsteroid`. -/
def TriangleAsteroid (w h : Int) (r : AsteroidRolls) : Asteroid :=
  { Asteroid.init w h r 3 with baseDamage := 5 }

/-- Constructor of `SquareAsteroid`. -/
def SquareAsteroid (w h : Int) (r : AsteroidRolls) : Asteroid :=
  { Asteroid.init w h r 4 with baseDamage := 10 }

/-- Constructor of `PentagonAsteroid`. -/
def PentagonAsteroid (w h : Int) (r : AsteroidRolls) : Asteroid :=
  { Asteroid.init w h r 5 with baseDamage := 15 }

/-- The factory `MakeAsteroid`.  Its `default` branch calls itself with the shape whose code
is `3 + GetRandomValue(0, 2)`, that is 3, 4 or 5, so the inner call lands in one of the first
three cases; the branch is written out on the roll. -/
def MakeAsteroid (w h : Int) (shape : AsteroidShape) (r : AsteroidRolls) : Asteroid :=
  match shape with
  | .TRIANGLE => TriangleAsteroid w h r
  | .SQUARE => SquareAsteroid w h r
  | .PENTAGON => PentagonAsteroid w h r
  | .RANDOM =>
    match r.shape with
    | 0 => TriangleAsteroid w h r
    | 1 => SquareAsteroid w h r
    | 2 => PentagonAsteroid w h r

/-! ## Power-ups and projectiles -/

/-- The enumeration `PowerUpType`. -/
inductive PowerUpType where
  | HEALTH
  | TRIPLE_SHOT
  deriving DecidableEq, Repr

/-- A `PowerUp` object. -/
structure PowerUp where
  position : Vector2
  radius : ℚ
  type : PowerUpType
  lifetime : ℚ
  timer : ℚ
  deriving DecidableEq, Repr

/-- Constructor `PowerUp(pos, t)` with the default member initialisers. -/
def PowerUp.new (pos : Vector2) (t : PowerUpType) : PowerUp :=
  { position := pos, radius := 20, type := t, lifetime := 5, timer := 0 }

/-- The enumeration `WeaponType` (its `COUNT` member is only the number of weapons). -/
inductive WeaponType where
  | LASER
  | BULLET
  deriving DecidableEq, Repr

/-- A `Projectile` object. -/
structure Projectile where
  position : Vector2
  velocity : Vector2
  baseDamage : Int
  type : WeaponType
  deriving DecidableEq, Repr

namespace Projectile

/-- Method `GetPosition`. -/
def GetPosition (p : Projectile) : Vector2 := p.position

/-- Method `GetRadius`. -/
def GetRadius (p : Projectile) : ℚ := if p.type = WeaponType.BULLET then 5 else 2

/-- Method `GetDamage`. -/
def GetDamage (p : Projectile) : Int := p.baseDamage

/-- Method `Update(dt)`: the moved projectile and whether it left the viewport (`true` asks
for removal). -/
def Update (screenW screenH : Int) (p : Projectile) (dt : ℚ) : Projectile × Bool :=
  let p1 : Projectile := { p with position := Vector2Add p.position (Vector2Scale p.velocity dt) }
  if p1.position.x < 0 ∨ p1.position.x > screenW ∨ p1.position.y < 0 ∨ p1.position.y > screenH then
    (p1, true)
  else
    (p1, false)

end Projectile

/-- The factory `MakeProjectile`; `unitDir` is `Vector2Normalize(direction)`. -/
def MakeProjectile (wt : WeaponType) (pos : Vector2) (speed : ℚ) (unitDir : Vector2) : Projectile :=
  { position := pos
    velocity := Vector2Scale unitDir speed
    baseDamage := if wt = WeaponType.LASER then 20 else 10
    type := wt }

/-! ## The ship -/

/-- The members of `Ship`. -/
structure Ship where
  position : Vector2
  hp : Int
  speed : ℚ
  alive : Bool
  fireRateLaser : ℚ
  fireRateBullet : ℚ
  spacingLaser : ℚ
  spacingBullet : ℚ
  deriving DecidableEq, Repr

namespace Ship

/-- Constructor `Ship(screenW, screenH)`. -/
def new (screenW screenH : Int) : Ship :=
  { position := ⟨screenW * (1 / 2), screenH * (1 / 2)⟩
    hp := 100
    speed := 250
    alive := true
    fireRateLaser := 18
    fireRateBullet := 22
    spacingLaser := 40
    spacingBullet := 20 }

/-- Method `TakeDamage(dmg)`. -/
def TakeDamage (s : Ship) (dmg : Int) : Ship :=
  if !s.alive then s
  else
    let s1 := { s with hp := s.hp - dmg }
    if s1.hp ≤ 0 then { s1 with hp := 0, alive := false } else s1

/-- Method `IsAlive`. -/
def IsAlive (s : Ship) : Bool := s.alive

/-- Method `GetPosition`. -/
def GetPosition (s : Ship) : Vector2 := s.position

/-- Method `GetHP`. -/
def GetHP (s : Ship) : Int := s.hp

/-- Method `GetFireRate`. -/
def GetFireRate (s : Ship) (wt : WeaponType) : ℚ :=
  if wt = WeaponType.LASER then s.fireRateLaser else s.fireRateBullet

/-- Method `GetSpacing`. -/
def GetSpacing (s : Ship) (wt : WeaponType) : ℚ :=
  if wt = WeaponType.LASER then s.spacingLaser else s.spacingBullet

end Ship

/-- The members of `PlayerShip`; `textureWidth` is the width of the loaded texture. -/
structure PlayerShip extends Ship where
  tripleShotActive : Bool
  tripleShotTimer : ℚ
  textureWidth : Int
  scale : ℚ
  deriving DecidableEq, Repr

/-- The movement keys polled by `PlayerShip::Update`. -/
structure MoveKeys where
  w : Bool
  s : Bool
  a : Bool
  d : Bool
  deriving DecidableEq, Repr

namespace PlayerShip

/-- The constant member `tripleShotDuration`. -/
def tripleShotDuration : ℚ := 5

/-- Constructor `PlayerShip(w, h)`; the texture comes from the presentation layer. -/
def new (w h : Int) (textureWidth : Int) : PlayerShip :=
  { toShip := Ship.new w h
    tripleShotActive := false
    tripleShotTimer := 0
    textureWidth := textureWidth
    scale := 1 / 4 }

/-- Method `GetRadius`: `(texture.width * scale) * 0.5f`. -/
def GetRadius (p : PlayerShip) : ℚ := ((p.textureWidth : ℚ) * p.scale) * (1 / 2)

/-- Method `TakeDamage`, inherited from `Ship`. -/
def TakeDamage (p : PlayerShip) (dmg : Int) : PlayerShip :=
  { p with toShip := p.toShip.TakeDamage dmg }

/-- Method `EnableTripleShot`. -/
def EnableTripleShot (p : PlayerShip) : PlayerShip :=
  { p with tripleShotActive := true, tripleShotTimer := tripleShotDuration }

/-- Method `IsTripleShotActive`. -/
def IsTripleShotActive (p : PlayerShip) : Bool := p.tripleShotActive

/-- Method `Update(dt)`. -/
def Update (p : PlayerShip) (k : MoveKeys) (dt : ℚ) : PlayerShip :=
  if p.alive then
    let y1 := if k.w then p.position.y - p.speed * dt else p.position.y
    let y2 := if k.s then y1 + p.speed * dt else y1
    let x1 := if k.a then p.position.x - p.speed * dt else p.position.x
    let x2 := if k.d then x1 + p.speed * dt else x1
    let p1 : PlayerShip := { p with position := ⟨x2, y2⟩ }
    if p1.tripleShotActive then
      let p2 : PlayerShip := { p1 with tripleShotTimer := p1.tripleShotTimer - dt }
      if p2.tripleShotTimer ≤ 0 then { p2 with tripleShotActive := false } else p2
    else p1
  else
    { p with position := ⟨p.position.x, p.position.y + p.speed * dt⟩ }

end PlayerShip

/-! ## The application state -/

/-- Values of irrational float expressions that the frame logic uses as constants. -/
structure FloatEnv where
  /-- The value of `cosf(0.5f)` inside `Vector2Rotate`. -/
  cosHalf : ℚ
  /-- The value of `sinf(0.5f)` inside `Vector2Rotate`. -/
  sinHalf : ℚ
  /-- Value of `Vector2Normalize({ -0.5f, -1.f })`, the left direction of a triple shot. -/
  leftUnit : Vector2
  /-- Value of `Vector2Normalize({ 0.5f, -1.f })`, the right direction of a triple shot. -/
  rightUnit : Vector2
  deriving DecidableEq, Repr

/-- The members of `Application` together with the locals of `Run` that live across frames. -/
structure Application where
  asteroids : List Asteroid
  projectiles : List Projectile
  currentShape : AsteroidShape
  score : Int
  currentLevel : Int
  scoreToNextLevel : Int
  powerUps : List PowerUp
  player : PlayerShip
  spawnTimer : ℚ
  spawnInterval : ℚ
  currentWeapon : WeaponType
  shotTimer : ℚ
  deriving DecidableEq, Repr

namespace Application

/-- Constant `C_WIDTH`. -/
def C_WIDTH : Int := 1000
/-- Constant `C_HEIGHT`. -/
def C_HEIGHT : Int := 1000
/-- Constant `MAX_AST`. -/
def MAX_AST : Nat := 150
/-- Constant `C_SPAWN_MIN`. -/
def C_SPAWN_MIN : ℚ := 1 / 2
/-- Constant `C_SPAWN_MAX`. -/
def C_SPAWN_MAX : ℚ := 3

/-- The state when `Run` enters its loop: the member initialisers of `Application` and the
locals set up before `while`. -/
def start (textureWidth : Int) (spawnU : ℚ) : Application :=
  { asteroids := []
    projectiles := []
    currentShape := AsteroidShape.TRIANGLE
    score := 0
    currentLevel := 1
    scoreToNextLevel := 100
    powerUps := []
    player := PlayerShip.new C_WIDTH C_HEIGHT textureWidth
    spawnTimer := 0
    spawnInterval := RandomFloat C_SPAWN_MIN C_SPAWN_MAX spawnU
    currentWeapon := WeaponType.LASER
    shotTimer := 0 }

/-- Method `ModifyAllAsteroids`: every asteroid gets `IncreaseSpeed(30.f)`. -/
def ModifyAllAsteroids (a : Application) : Application :=
  { a with asteroids := a.asteroids.map (fun x => x.IncreaseSpeed 30) }

/-- The block "Restart logic" of `Run`. -/
def restartLogic (keyR : Bool) (textureWidth : Int) (spawnU : ℚ) (a : Application) : Application :=
  if (!a.player.IsAlive) && keyR then
    { a with
      player := PlayerShip.new C_WIDTH C_HEIGHT textureWidth
      asteroids := []
      projectiles := []
      spawnTimer := 0
      score := 0
      spawnInterval := RandomFloat C_SPAWN_MIN C_SPAWN_MAX spawnU }
  else a

/-- The block "Asteroid shape switch" of `Run`: four independent key tests in order. -/
def shapeSwitch (key1 key2 key3 key4 : Bool) (a : Application) : Application :=
  let s1 := if key1 then AsteroidShape.TRIANGLE else a.currentShape
  let s2 := if key2 then AsteroidShape.SQUARE else s1
  let s3 := if key3 then AsteroidShape.PENTAGON else s2
  let s4 := if key4 then AsteroidShape.RANDOM else s3
  { a with currentShape := s4 }

/-- The next weapon, `(currentWeapon + 1) % COUNT`. -/
def nextWeapon : WeaponType → WeaponType
  | .LASER => .BULLET
  | .BULLET => .LASER

/-- The block "Weapon switch" of `Run`. -/
def weaponSwitch (keyTab : Bool) (a : Application) : Application :=
  if keyTab then { a with currentWeapon := nextWeapon a.currentWeapon } else a

/-- The projectiles pushed by one firing event (one pass through the body of the `while`
of the block "Shooting"). -/
def volley (env : FloatEnv) (player : PlayerShip) (wt : WeaponType) (projSpeed : ℚ) :
    List Projectile :=
  let p : Vector2 := ⟨player.GetPosition.x, player.GetPosition.y - player.GetRadius⟩
  if player.IsTripleShotActive then
    let spacing : ℚ := 10
    [ MakeProjectile wt p projSpeed ⟨0, -1⟩,
      MakeProjectile wt ⟨p.x - spacing, p.y⟩ projSpeed env.leftUnit,
      MakeProjectile wt ⟨p.x + spacing, p.y⟩ projSpeed env.rightUnit ]
  else
    [ MakeProjectile wt p projSpeed ⟨0, -1⟩ ]

/-- The loop `while (shotTimer >= interval)`: each pass pushes one volley, subtracts the
interval and counts one firing event.  The result is the final timer, the projectiles and
the number of firing events; `none` means the loop was still running when the fuel ended. -/
def fireLoop (shots : List Projectile) (interval : ℚ) :
    Nat → ℚ → List Projectile → Nat → Option (ℚ × List Projectile × Nat)
  | 0, t, ps, n => if t ≥ interval then none else some (t, ps, n)
  | fuel + 1, t, ps, n =>
    if t ≥ interval then fireLoop shots interval fuel (t - interval) (ps ++ shots) (n + 1)
    else some (t, ps, n)

/-- The C function `fmodf` on exact values: `x` minus `y` times the quotient truncated
towards zero. -/
def fmodf (x y : ℚ) : ℚ :=
  let q := x / y
  x - ((if 0 ≤ q then ⌊q⌋ else ⌈q⌉ : Int) : ℚ) * y

/-- The block "Shooting" of `Run`.  The second component counts the firing events of the
frame.  The fuel handed to the loop is the number of whole intervals in the timer. -/
def shooting (env : FloatEnv) (dt : ℚ) (keySpace : Bool) (a : Application) :
    Option (Application × Nat) :=
  if a.player.IsAlive && keySpace then
    let t := a.shotTimer + dt
    let interval := 1 / a.player.GetFireRate a.currentWeapon
    let projSpeed := a.player.GetSpacing a.currentWeapon * a.player.GetFireRate a.currentWeapon
    (fireLoop (volley env a.player a.currentWeapon projSpeed) interval
        ⌊t / interval⌋.toNat t a.projectiles 0).map
      (fun r => ({ a with shotTimer := r.1, projectiles := r.2.1 }, r.2.2))
  else if !keySpace then
    some ({ a with shotTimer := 0 }, 0)
  else
    let maxInterval := 1 / a.player.GetFireRate a.currentWeapon
    if a.shotTimer > maxInterval then
      some ({ a with shotTimer := fmodf a.shotTimer maxInterval }, 0)
    else some (a, 0)

/-- The block "Spawn asteroids" of `Run`. -/
def spawnAsteroids (r : AsteroidRolls) (spawnU : ℚ) (a : Application) : Application :=
  if a.spawnTimer ≥ a.spawnInterval ∧ a.asteroids.length < MAX_AST then
    { a with
      asteroids := a.asteroids ++ [MakeAsteroid C_WIDTH C_HEIGHT a.currentShape r]
      spawnTimer := 0
      spawnInterval := RandomFloat C_SPAWN_MIN C_SPAWN_MAX spawnU }
  else a

/-- The block "Update projectiles" of `Run`: `remove_if` with `Projectile::Update`. -/
def updateProjectiles (dt : ℚ) (a : Application) : Application :=
  { a with
    projectiles := a.projectiles.filterMap (fun p =>
      let r := Projectile.Update C_WIDTH C_HEIGHT p dt
      if r.2 then none else some r.1) }

/-! ### Projectile-asteroid collisions -/

/-- The collision test of the inner loop: `dist < (*pit).GetRadius() + (*ait)->GetRadius()`. -/
def collides (p : Projectile) (x : Asteroid) : Bool :=
  distLt p.GetPosition x.GetPosition (p.GetRadius + x.GetRadius)

/-- The inner `for (ait = begin; ait != end; ++ait)` up to its `if`: the index of the first
asteroid, in vector order, that passes the collision test. -/
def firstHit (p : Projectile) : List Asteroid → Option Nat
  | [] => none
  | x :: xs => if collides p x then some 0 else (firstHit p xs).map (· + 1)

/-- The random draws consumed while one hit is resolved. -/
structure HitRolls where
  /-- Draws of the `MakeAsteroid` call for `i == 0`. -/
  child0 : AsteroidRolls
  /-- Draws of the `MakeAsteroid` call for `i == 1`. -/
  child1 : AsteroidRolls
  /-- Value of `GetRandomValue(0, 100)` of the power-up drop. -/
  drop : Nat
  /-- Value of `GetRandomValue(0, 1)` choosing the power-up type. -/
  kind : Nat
  deriving DecidableEq, Repr

/-- One pass of the body of `for (int i = 0; i < 2; ++i)`: the asteroid pushed for the hit
asteroid `x`; `s` is the sine of the angle (`sinf(0.5f)` for `i == 0`, its negation for
`i == 1`). -/
def splitChild (env : FloatEnv) (shape : AsteroidShape) (r : AsteroidRolls) (x : Asteroid)
    (s : ℚ) : Asteroid :=
  { MakeAsteroid C_WIDTH C_HEIGHT shape r with
    position := x.GetPosition
    size := Int.tdiv x.GetSize 2
    velocity := rotateKeepLength x.velocity env.cosHalf s }

/-- The asteroids pushed for a hit on `x`: two when `oldSize > 1`, none otherwise. -/
def splitChildren (env : FloatEnv) (shape : AsteroidShape) (r : HitRolls) (x : Asteroid) :
    List Asteroid :=
  if x.GetSize > 1 then
    [splitChild env shape r.child0 x env.sinHalf, splitChild env shape r.child1 x (-env.sinHalf)]
  else []

/-- The state right after `ait = asteroids.erase(ait); pit = projectiles.erase(pit);`, for
a hit of the projectile at index `pit` on the asteroid `x` at index `ait`: the children have
been pushed at the back, then the element at `ait` and the projectile were erased. -/
def eraseHit (env : FloatEnv) (r : HitRolls) (pit ait : Nat) (x : Asteroid) (a : Application) :
    Application :=
  { a with
    asteroids := (a.asteroids ++ splitChildren env a.currentShape r x).eraseIdx ait
    projectiles := a.projectiles.eraseIdx pit }

/-- The lines from `score += ...` to the end of the level-up `if`, for a score increment
`dmg`. -/
def addScore (dmg : Int) (a : Application) : Application :=
  let a1 := { a with score := a.score + dmg }
  if a1.score ≥ a1.scoreToNextLevel then
    { ModifyAllAsteroids { a1 with
        currentLevel := a1.currentLevel + 1
        scoreToNextLevel := a1.scoreToNextLevel + 100 } with
      spawnInterval := max (1 / 20) (a1.spawnInterval * (4 / 5)) }
  else a1

/-- The power-up drop `if (GetRandomValue(0, 100) < 5) ...` at `asteroidPosition`. -/
def dropPowerUp (r : HitRolls) (asteroidPosition : Vector2) (a : Application) : Application :=
  if r.drop < 5 then
    { a with
      powerUps := a.powerUps ++
        [PowerUp.new asteroidPosition
          (if r.kind = 0 then PowerUpType.HEALTH else PowerUpType.TRIPLE_SHOT)] }
  else a

/-- The element that `(*ait)` denotes in `score += (*ait)->GetDamage()`: `ait` is the
iterator returned by `asteroids.erase`, so it is the element now at the index of the erased
asteroid.  There is none when that index is past the end. -/
def scoreRead (ait : Nat) (a : Application) : Option Asteroid := a.asteroids[ait]?

/-- The body of `if (dist < ...)` for the projectile at index `pit` and the asteroid at
index `ait`.  The result is `none` when `ait` is no index of the vector or when the read of
`(*ait)` after the erase is past the end. -/
def resolveHit (env : FloatEnv) (r : HitRolls) (pit ait : Nat) (a : Application) :
    Option Application :=
  match a.asteroids[ait]? with
  | none => none
  | some x =>
    let a1 := eraseHit env r pit ait x a
    match scoreRead ait a1 with
    | none => none
    | some y => some (dropPowerUp r x.GetPosition (addScore y.GetDamage a1))

/-- One pass of the outer loop body for the projectile at index `pit`: the new state and the
new value of `pit` (unchanged after a hit, because the erase returned the next projectile;
incremented otherwise). -/
def projectileStep (env : FloatEnv) (r : HitRolls) (pit : Nat) (a : Application) :
    Option (Application × Nat) :=
  match a.projectiles[pit]? with
  | none => none
  | some p =>
    match firstHit p a.asteroids with
    | none => some (a, pit + 1)
    | some ait => (resolveHit env r pit ait a).map (fun a1 => (a1, pit))

/-- The outer loop `for (pit = begin; pit != end;)`, with `n` the number of projectiles
from `pit` to the end: each pass handles one of them, either erasing it or stepping over
it (lemma `projectileStep_remaining`), so `pit != end` holds exactly while `n` is positive.
`rolls k` are the draws available to the `k`-th pass. -/
def collisionLoop (env : FloatEnv) (rolls : Nat → HitRolls) :
    Nat → Nat → Nat → Application → Option Application
  | 0, _, _, a => some a
  | n + 1, k, pit, a =>
    match projectileStep env (rolls k) pit a with
    | none => none
    | some (a1, pit1) => collisionLoop env rolls n (k + 1) pit1 a1

/-- The block "Projectile-Asteroid collisions" of `Run`. -/
def projectileAsteroidCollisions (env : FloatEnv) (rolls : Nat → HitRolls) (a : Application) :
    Option Application :=
  collisionLoop env rolls a.projectiles.length 0 0 a

/-! ### Power-ups and the ship -/

/-- The effect of a picked-up power-up, the `switch (it->type)`. -/
def applyPowerUp (t : PowerUpType) (player : PlayerShip) : PlayerShip :=
  match t with
  | .HEALTH => player.TakeDamage (-20)
  | .TRIPLE_SHOT => player.EnableTripleShot

/-- The loop over `powerUps`: the power-ups that stay, in order, and the ship afterwards. -/
def powerUpLoop (dt : ℚ) : List PowerUp → PlayerShip → List PowerUp × PlayerShip
  | [], player => ([], player)
  | it :: rest, player =>
    let it1 : PowerUp := { it with timer := it.timer + dt }
    if it1.timer ≥ it1.lifetime then powerUpLoop dt rest player
    else if distLt player.GetPosition it1.position (player.GetRadius + it1.radius) then
      powerUpLoop dt rest (applyPowerUp it1.type player)
    else
      let r := powerUpLoop dt rest player
      (it1 :: r.1, r.2)

/-- The power-up block of `Run`. -/
def powerUpPass (dt : ℚ) (a : Application) : Application :=
  let r := powerUpLoop dt a.powerUps a.player
  { a with powerUps := r.1, player := r.2 }

/-- The predicate `remove_collision` applied along the asteroids by `remove_if`: the
asteroids that stay (moved by their `Update`) and the ship afterwards. -/
def shipCollisionLoop (dt : ℚ) : List Asteroid → PlayerShip → List Asteroid × PlayerShip
  | [], player => ([], player)
  | x :: rest, player =>
    if player.IsAlive &&
        distLt player.GetPosition x.GetPosition (player.GetRadius + x.GetRadius) then
      shipCollisionLoop dt rest (player.TakeDamage x.GetDamage)
    else
      let u := Asteroid.Update C_WIDTH C_HEIGHT x dt
      let r := shipCollisionLoop dt rest player
      if !u.2 then r else (u.1 :: r.1, r.2)

/-- The block "Asteroid-Ship collisions" of `Run`. -/
def asteroidShipCollisions (dt : ℚ) (a : Application) : Application :=
  let r := shipCollisionLoop dt a.asteroids a.player
  { a with asteroids := r.1, player := r.2 }

/-! ### One frame -/

/-- Everything one pass of the `while` of `Run` reads from outside the state. -/
structure FrameInput where
  /-- The frame time `GetFrameTime()`. -/
  dt : ℚ
  /-- The movement keys held. -/
  move : MoveKeys
  keyR : Bool
  key1 : Bool
  key2 : Bool
  key3 : Bool
  key4 : Bool
  keyTab : Bool
  /-- Whether the space key is held (`IsKeyDown(KEY_SPACE)`). -/
  keySpace : Bool
  /-- Width of the texture a restart would load. -/
  textureWidth : Int
  /-- Value of `rand() / RAND_MAX` for the spawn interval drawn on restart. -/
  restartU : ℚ
  /-- Draws of the asteroid a spawn would create. -/
  spawnRolls : AsteroidRolls
  /-- Value of `rand() / RAND_MAX` for the spawn interval drawn after a spawn. -/
  spawnU : ℚ
  /-- Draws for the hits of the collision pass. -/
  hitRolls : Nat → HitRolls

/-- One pass of the `while` of `Run`, without the rendering.  The second component counts
the firing events of the frame. -/
def frame (env : FloatEnv) (i : FrameInput) (a : Application) : Option (Application × Nat) :=
  let a1 := { a with spawnTimer := a.spawnTimer + i.dt }
  let a2 := { a1 with player := a1.player.Update i.move i.dt }
  let a3 := restartLogic i.keyR i.textureWidth i.restartU a2
  let a4 := shapeSwitch i.key1 i.key2 i.key3 i.key4 a3
  let a5 := weaponSwitch i.keyTab a4
  match shooting env i.dt i.keySpace a5 with
  | none => none
  | some (a6, shots) =>
    let a7 := spawnAsteroids i.spawnRolls i.spawnU a6
    let a8 := updateProjectiles i.dt a7
    match projectileAsteroidCollisions env i.hitRolls a8 with
    | none => none
    | some a9 => some (asteroidShipCollisions i.dt (powerUpPass i.dt a9), shots)

/-- A run of frames: the final state and the number of firing events of each frame. -/
def run (env : FloatEnv) : List FrameInput → Application → Option (Application × List Nat)
  | [], a => some (a, [])
  | i :: rest, a =>
    match frame env i a with
    | none => none
    | some (a1, n) =>
      match run env rest a1 with
      | none => none
      | some (a2, ns) => some (a2, n :: ns)

/-- The state that reaches the block "Shooting" in a frame: the spawn timer advanced, the
ship updated, then the restart, shape-switch and weapon-switch blocks. -/
def beforeShooting (i : FrameInput) (a : Application) : Application :=
  weaponSwitch i.keyTab
    (shapeSwitch i.key1 i.key2 i.key3 i.key4
      (restartLogic i.keyR i.textureWidth i.restartU
        { a with spawnTimer := a.spawnTimer + i.dt, player := a.player.Update i.move i.dt }))

/-- The state that reaches the block "Projectile-Asteroid collisions" in a frame, given the
state `a6` left by the block "Shooting". -/
def beforeCollisions (i : FrameInput) (a6 : Application) : Application :=
  updateProjectiles i.dt (spawnAsteroids i.spawnRolls i.spawnU a6)

/-- The collision pass in the words of the specification: the projectiles are taken in
order; a projectile that overlaps no asteroid stays and changes nothing; a projectile that
overlaps some asteroid is removed and its hit is resolved against the first overlapping
asteroid in the current order of the asteroids.  `ps` are the projectiles still to be
handled and `rolls k` are the draws of the `k`-th projectile. -/
def firstHitPass (env : FloatEnv) (rolls : Nat → HitRolls) :
    Nat → List Projectile → Application → Option Application
  | _, [], a => some { a with projectiles := [] }
  | k, p :: ps, a =>
    match firstHit p a.asteroids with
    | none =>
      (firstHitPass env rolls (k + 1) ps a).map
        (fun a1 => { a1 with projectiles := p :: a1.projectiles })
    | some ait =>
      match resolveHit env (rolls k) 0 ait { a with projectiles := p :: ps } with
      | none => none
      | some a1 => firstHitPass env rolls (k + 1) ps a1

end Application

/-! ## Predicates used by the statements -/

/-- The size class is 1, 2 or 4 and the base damage is that of one of the three shapes. -/
def Asteroid.WF (x : Asteroid) : Prop :=
  (x.size = 1 ∨ x.size = 2 ∨ x.size = 4) ∧
    (x.baseDamage = 5 ∨ x.baseDamage = 10 ∨ x.baseDamage = 15)

instance (x : Asteroid) : Decidable x.WF := by unfold Asteroid.WF; infer_instance

/-- What the splitting claims observe of an asteroid: its position and its size class. -/
def Asteroid.placeSize (x : Asteroid) : Vector2 × Int := (x.position, x.size)

/-- The ship carries the fire rates its constructor sets. -/
def PlayerShip.stdRates (p : PlayerShip) : Prop := p.fireRateLaser = 18 ∧ p.fireRateBullet = 22

/-- Every asteroid of the list has a size class in {1, 2, 4} and the base damage of a shape. -/
def AllWF (xs : List Asteroid) : Prop := ∀ x ∈ xs, x.WF

/-- The fire rate the constructor of `Ship` gives to a weapon. -/
def stdRate : WeaponType → ℚ
  | .LASER => 18
  | .BULLET => 22

/-- The state of the fire control between frames: the ship has the constructor's fire rates
and the shot accumulator lies between 0 and the interval of the current weapon. -/
def Application.FireInv (a : Application) : Prop :=
  a.player.stdRates ∧ 0 ≤ a.shotTimer ∧ a.shotTimer * stdRate a.currentWeapon ≤ 1

/-- The scoring steps of a sequence of kills, applied in order. -/
def Application.kills (ds : List Int) (a : Application) : Application :=
  ds.foldl (fun s d => Application.addScore d s) a

/-! ## Concrete inputs -/

/-- Draws with every roll at its lowest value. -/
def sampleRolls : AsteroidRolls :=
  { shape := 0, size := 0, edge := 0, edgeU := 0, dir := ⟨0, 1⟩, speedU := 0, rotSpeedU := 0,
    rotationU := 0 }

/-- Rational approximations of the float constants. -/
def sampleEnv : FloatEnv :=
  { cosHalf := 351 / 400, sinHalf := 959 / 2000, leftUnit := ⟨-559 / 1250, -1118 / 1250⟩,
    rightUnit := ⟨559 / 1250, -1118 / 1250⟩ }

/-- Draws of a hit that drops no power-up. -/
def sampleHitRolls : Application.HitRolls :=
  { child0 := sampleRolls, child1 := sampleRolls, drop := 50, kind := 0 }

/-- A size-1 Triangle asteroid (damage 5) at (100, 100). -/
def smallTriangle : Asteroid :=
  { position := ⟨100, 100⟩, rotation := 0, velocity := ⟨0, 10⟩, rotationSpeed := 0, size := 1,
    baseDamage := 5, sides := 3 }

/-- A size-4 Pentagon asteroid (damage 60) at (800, 800). -/
def largePentagon : Asteroid :=
  { position := ⟨800, 800⟩, rotation := 0, velocity := ⟨0, 10⟩, rotationSpeed := 0, size := 4,
    baseDamage := 15, sides := 5 }

/-- A size-2 Square asteroid (damage 20) at (100, 100). -/
def mediumSquare : Asteroid :=
  { position := ⟨100, 100⟩, rotation := 0, velocity := ⟨0, 10⟩, rotationSpeed := 0, size := 2,
    baseDamage := 10, sides := 4 }

/-- A laser projectile at (100, 100). -/
def sampleProjectile : Projectile := MakeProjectile WeaponType.LASER ⟨100, 100⟩ 720 ⟨0, -1⟩

/-- The start state with the small triangle, the large pentagon and one projectile that
overlaps only the triangle. -/
def twoAsteroidWorld : Application :=
  { Application.start 64 0 with
    asteroids := [smallTriangle, largePentagon], projectiles := [sampleProjectile] }

/-- The start state with the small triangle alone and one projectile that overlaps it. -/
def oneAsteroidWorld : Application :=
  { Application.start 64 0 with asteroids := [smallTriangle], projectiles := [sampleProjectile] }

/-- The start state with the medium square and the large pentagon and one projectile that
overlaps only the square. -/
def splitWorld : Application :=
  { Application.start 64 0 with
    asteroids := [mediumSquare, largePentagon], projectiles := [sampleProjectile] }

/-- A state reached at level 3 in which the ship has died. -/
def deadWorld : Application :=
  { Application.start 64 0 with
    asteroids := [smallTriangle]
    projectiles := [sampleProjectile]
    score := 250
    currentLevel := 3
    scoreToNextLevel := 300
    player := { PlayerShip.new 1000 1000 64 with hp := 0, alive := false, position := ⟨500, 900⟩ } }

/-- The ship made by the constructor, at HP 80. -/
def hurtShip : PlayerShip := { PlayerShip.new 1000 1000 64 with hp := 80 }

/-- A fresh HEALTH power-up at the screen centre, where the ship is. -/
def healthAtShip : PowerUp := PowerUp.new ⟨500, 500⟩ PowerUpType.HEALTH

/-- A TRIPLE_SHOT power-up at the screen centre whose age has reached 5. -/
def oldPowerUp : PowerUp := { PowerUp.new ⟨500, 500⟩ PowerUpType.TRIPLE_SHOT with timer := 5 }

/-- A fresh HEALTH power-up in the corner, away from the ship. -/
def farPowerUp : PowerUp := PowerUp.new ⟨0, 0⟩ PowerUpType.HEALTH

/-- A frame with no key held and no time elapsed. -/
def idleFrame : Application.FrameInput :=
  { dt := 0, move := ⟨false, false, false, false⟩, keyR := false, key1 := false, key2 := false,
    key3 := false, key4 := false, keyTab := false, keySpace := false, textureWidth := 64,
    restartU := 0, spawnRolls := sampleRolls, spawnU := 0, hitRolls := fun _ => sampleHitRolls }

/-- A frame of 3/55 s with the fire key held. -/
def holdFrame : Application.FrameInput := { idleFrame with dt := 3 / 55, keySpace := true }

/-- A frame of 9/220 s with the fire key held in which the weapon is toggled. -/
def toggleFrame : Application.FrameInput :=
  { idleFrame with dt := 9 / 220, keySpace := true, keyTab := true }

/-- A size-2 Square asteroid at (120, 100), 20 away from the sample projectile. -/
def offsetSquare : Asteroid := { mediumSquare with position := ⟨120, 100⟩ }

/-- A size-4 Pentagon asteroid at (110, 100), 10 away from the sample projectile. -/
def nearLarge : Asteroid := { largePentagon with position := ⟨110, 100⟩ }

/-- A laser projectile at (900, 100), away from every sample asteroid. -/
def farProjectile : Projectile := MakeProjectile WeaponType.LASER ⟨900, 100⟩ 720 ⟨0, -1⟩

/-- The start state with four asteroids, of which the sample projectile overlaps the last
three: the first one overlapped (index 1) is the farthest of them, the nearest is at index
2 and the last is at index 3; a second projectile overlaps none. -/
def crowdedWorld : Application :=
  { Application.start 64 0 with
    asteroids := [largePentagon, offsetSquare, smallTriangle, nearLarge]
    projectiles := [sampleProjectile, farProjectile] }

/-- The state after the collision step of the first projectile of `crowdedWorld`. -/
def afterCrowdedHit : Application :=
  ((Application.projectileStep sampleEnv sampleHitRolls 0 crowdedWorld).getD
    (crowdedWorld, 7)).1

/-- The start state with the ship at HP 80 and three power-ups: one whose age has reached
the lifetime, a fresh HEALTH one on the ship and a fresh one in the corner. -/
def powerUpWorld : Application :=
  { Application.start 64 0 with
    player := hurtShip
    powerUps := [oldPowerUp, healthAtShip, farPowerUp] }

/-- A frame of 1/60 s with no key held. -/
def tickFrame : Application.FrameInput := { idleFrame with dt := 1 / 60 }

/-- The state after one idle frame from `splitWorld`, in which the projectile splits the
square. -/
def afterSplitFrame : Application :=
  ((Application.run sampleEnv [idleFrame] splitWorld).getD (splitWorld, [])).1

/-- The state after the frame `holdFrame` from the start state: the laser is selected and
the accumulator holds 3/55 s. -/
def afterHoldFrame : Application :=
  ((Application.run sampleEnv [holdFrame] (Application.start 64 0)).getD
    (Application.start 64 0, [])).1

/-! # Theorems -/

open Application

/-! ## Damage to the ship (C5) -/

theorem TakeDamage_alive_pos (s : Ship) (d : Int) (ha : s.alive = true) (h : s.hp - d > 0) :
    s.TakeDamage d = { s with hp := s.hp - d } := by
  unfold Ship.TakeDamage
  simp [ha, not_le.mpr h]

theorem TakeDamage_alive_nonpos (s : Ship) (d : Int) (ha : s.alive = true) (h : s.hp - d ≤ 0) :
    s.TakeDamage d = { s with hp := 0, alive := false } := by
  unfold Ship.TakeDamage
  simp [ha, h]

theorem TakeDamage_dead (s : Ship) (d : Int) (ha : s.alive = false) : s.TakeDamage d = s := by
  unfold Ship.TakeDamage
  simp [ha]

/-- C5: `Ship::TakeDamage(d)` on an alive ship with HP `h` leaves HP `h - d` and the ship alive
when `h - d > 0`, leaves HP 0 and the ship dead when `h - d ≤ 0`, and changes nothing on a
dead ship; no other member changes.  In particular HP 100 hit by a size-2 Square asteroid
gives HP 80 and alive, HP 15 hit by a size-1 Pentagon asteroid gives HP 0 and dead, and a
HEALTH pickup at HP 80 gives HP 100. -/
theorem C5_TakeDamage (s : Ship) (d : Int) :
    (s.alive = true → s.hp - d > 0 →
      s.TakeDamage d = { s with hp := s.hp - d } ∧ (s.TakeDamage d).hp = s.hp - d ∧
        (s.TakeDamage d).alive = true) ∧
    (s.alive = true → s.hp - d ≤ 0 →
      s.TakeDamage d = { s with hp := 0, alive := false } ∧ (s.TakeDamage d).hp = 0 ∧
        (s.TakeDamage d).alive = false) ∧
    (s.alive = false → s.TakeDamage d = s) ∧
    (∀ (w h : Int) (r : AsteroidRolls), s.alive = true → s.hp = 100 → r.size = 1 →
      (SquareAsteroid w h r).GetSize = 2 ∧ (SquareAsteroid w h r).GetDamage = 20 ∧
        (s.TakeDamage (SquareAsteroid w h r).GetDamage).hp = 80 ∧
        (s.TakeDamage (SquareAsteroid w h r).GetDamage).alive = true) ∧
    (∀ (w h : Int) (r : AsteroidRolls), s.alive = true → s.hp = 15 → r.size = 0 →
      (PentagonAsteroid w h r).GetSize = 1 ∧ (PentagonAsteroid w h r).GetDamage = 15 ∧
        (s.TakeDamage (PentagonAsteroid w h r).GetDamage).hp = 0 ∧
        (s.TakeDamage (PentagonAsteroid w h r).GetDamage).alive = false) ∧
    (∀ p : PlayerShip, p.alive = true → p.hp = 80 →
      (applyPowerUp PowerUpType.HEALTH p).hp = 100 ∧
        (applyPowerUp PowerUpType.HEALTH p).alive = true) := by
  refine ⟨?_, ?_, ?_, ?_, ?_, ?_⟩
  · intro ha h
    rw [TakeDamage_alive_pos s d ha h]
    exact ⟨rfl, rfl, ha⟩
  · intro ha h
    rw [TakeDamage_alive_nonpos s d ha h]
    exact ⟨rfl, rfl, rfl⟩
  · exact TakeDamage_dead s d
  · intro w h r ha hhp hr
    have hd : (SquareAsteroid w h r).GetDamage = 20 := by
      simp [SquareAsteroid, Asteroid.GetDamage, Asteroid.init, hr]
    have hs : (SquareAsteroid w h r).GetSize = 2 := by
      simp [SquareAsteroid, Asteroid.GetSize, Asteroid.init, hr]
    rw [hd, TakeDamage_alive_pos s 20 ha (by omega)]
    exact ⟨hs, rfl, by simp [hhp], ha⟩
  · intro w h r ha hhp hr
    have hd : (PentagonAsteroid w h r).GetDamage = 15 := by
      simp [PentagonAsteroid, Asteroid.GetDamage, Asteroid.init, hr]
    have hs : (PentagonAsteroid w h r).GetSize = 1 := by
      simp [PentagonAsteroid, Asteroid.GetSize, Asteroid.init, hr]
    rw [hd, TakeDamage_alive_nonpos s 15 ha (by omega)]
    exact ⟨hs, rfl, rfl, rfl⟩
  · intro p ha hhp
    have : p.toShip.TakeDamage (-20) = { p.toShip with hp := p.hp - (-20) } :=
      TakeDamage_alive_pos p.toShip (-20) ha (by omega)
    simp only [applyPowerUp, PlayerShip.TakeDamage, this]
    exact ⟨by simp [hhp], ha⟩

/-- Witness of C5 on the ship made by the constructor, and on a ship at HP 15 and at HP 80. -/
theorem C5_TakeDamage_witness :
    ((Ship.new 1000 1000).TakeDamage 20).hp = 80 ∧
    (({ Ship.new 1000 1000 with hp := 15 } : Ship).TakeDamage 15).alive = false ∧
    (({ Ship.new 1000 1000 with alive := false } : Ship).TakeDamage 7).hp = 100 ∧
    ((Ship.new 1000 1000).TakeDamage
      (SquareAsteroid 1000 1000 { sampleRolls with size := 1 }).GetDamage).hp = 80 ∧
    (({ Ship.new 1000 1000 with hp := 15 } : Ship).TakeDamage
      (PentagonAsteroid 1000 1000 sampleRolls).GetDamage).hp = 0 ∧
    (applyPowerUp PowerUpType.HEALTH
      { PlayerShip.new 1000 1000 64 with hp := 80 }).hp = 100 :=
  ⟨((C5_TakeDamage (Ship.new 1000 1000) 20).1 rfl (by decide)).2.1,
   ((C5_TakeDamage { Ship.new 1000 1000 with hp := 15 } 15).2.1 rfl (by decide)).2.2,
   congrArg Ship.hp ((C5_TakeDamage { Ship.new 1000 1000 with alive := false } 7).2.2.1 rfl),
   ((C5_TakeDamage (Ship.new 1000 1000) 0).2.2.2.1 1000 1000 { sampleRolls with size := 1 }
      rfl rfl rfl).2.2.1,
   ((C5_TakeDamage { Ship.new 1000 1000 with hp := 15 } 0).2.2.2.2.1 1000 1000 sampleRolls
      rfl rfl rfl).2.2.1,
   ((C5_TakeDamage (Ship.new 1000 1000) 0).2.2.2.2.2
      { PlayerShip.new 1000 1000 64 with hp := 80 } rfl rfl).1⟩

/-! ## Restart (C2) -/

/-- What the restart block does for a dead ship when the restart key is pressed: the ship is
rebuilt, asteroids and projectiles are cleared and the score is zeroed, while the level, the
threshold and the power-ups are left as they were. -/
theorem restartLogic_dead (a : Application) (tw : Int) (u : ℚ) (hd : a.player.alive = false) :
    (restartLogic true tw u a).score = 0 ∧
    (restartLogic true tw u a).asteroids = [] ∧
    (restartLogic true tw u a).projectiles = [] ∧
    (restartLogic true tw u a).player = PlayerShip.new C_WIDTH C_HEIGHT tw ∧
    (restartLogic true tw u a).currentLevel = a.currentLevel ∧
    (restartLogic true tw u a).scoreToNextLevel = a.scoreToNextLevel ∧
    (restartLogic true tw u a).powerUps = a.powerUps := by
  simp [restartLogic, Ship.IsAlive, hd]

/-- C2 (the code at the failing input): restarting from the dead state at level 3 gives score
0, no asteroids, no projectiles and a fresh ship at (500, 500) with HP 100, but the level is
still 3 and the threshold still 300. -/
theorem C2_restart_keeps_level :
    deadWorld.player.alive = false ∧
    (restartLogic true 64 0 deadWorld).score = 0 ∧
    (restartLogic true 64 0 deadWorld).asteroids = [] ∧
    (restartLogic true 64 0 deadWorld).projectiles = [] ∧
    (restartLogic true 64 0 deadWorld).player.position = ⟨500, 500⟩ ∧
    (restartLogic true 64 0 deadWorld).player.hp = 100 ∧
    (restartLogic true 64 0 deadWorld).player.alive = true ∧
    (restartLogic true 64 0 deadWorld).currentLevel = 3 ∧
    (restartLogic true 64 0 deadWorld).scoreToNextLevel = 300 := by
  decide!

/-! ## Score and level (C3) -/

theorem addScore_score (d : Int) (a : Application) : (addScore d a).score = a.score + d := by
  by_cases h : a.score + d ≥ a.scoreToNextLevel <;> simp [addScore, h, ModifyAllAsteroids]

theorem addScore_level (d : Int) (a : Application) :
    (addScore d a).currentLevel =
      if a.score + d ≥ a.scoreToNextLevel then a.currentLevel + 1 else a.currentLevel := by
  by_cases h : a.score + d ≥ a.scoreToNextLevel <;> simp [addScore, h, ModifyAllAsteroids]

theorem addScore_threshold (d : Int) (a : Application) :
    (addScore d a).scoreToNextLevel =
      if a.score + d ≥ a.scoreToNextLevel then a.scoreToNextLevel + 100
      else a.scoreToNextLevel := by
  by_cases h : a.score + d ≥ a.scoreToNextLevel <;> simp [addScore, h, ModifyAllAsteroids]

theorem kills_append (ds1 ds2 : List Int) (a : Application) :
    kills (ds1 ++ ds2) a = kills ds2 (kills ds1 a) := by
  simp [kills, List.foldl_append]

theorem kills_cons (d : Int) (ds : List Int) (a : Application) :
    kills (d :: ds) a = kills ds (addScore d a) := rfl

theorem kills_level_mono (ds : List Int) (a : Application) :
    a.currentLevel ≤ (kills ds a).currentLevel := by
  induction ds generalizing a with
  | nil => exact le_refl _
  | cons d ds ih =>
    rw [kills_cons]
    refine le_trans ?_ (ih (addScore d a))
    rw [addScore_level]
    split <;> omega

/-- The progression invariant: the threshold is 100 times the level and the score lies in
the 100 points below it. -/
theorem kills_invariant (ds : List Int) (a : Application)
    (hds : ∀ d ∈ ds, 0 ≤ d ∧ d ≤ 60)
    (ht : a.scoreToNextLevel = 100 * a.currentLevel)
    (hlo : 100 * (a.currentLevel - 1) ≤ a.score) (hhi : a.score < a.scoreToNextLevel) :
    (kills ds a).scoreToNextLevel = 100 * (kills ds a).currentLevel ∧
    100 * ((kills ds a).currentLevel - 1) ≤ (kills ds a).score ∧
    (kills ds a).score < (kills ds a).scoreToNextLevel ∧
    (kills ds a).score = a.score + ds.sum := by
  induction ds generalizing a with
  | nil => simp [kills, ht, hlo, ht ▸ hhi]
  | cons d ds ih =>
    have hd := hds d (List.mem_cons_self d ds)
    have hrest : ∀ e ∈ ds, 0 ≤ e ∧ e ≤ 60 := fun e he => hds e (List.mem_cons_of_mem d he)
    rw [kills_cons]
    have h1 := addScore_score d a
    have h2 := addScore_level d a
    have h3 := addScore_threshold d a
    have := ih (addScore d a) hrest
      (by rw [h2, h3]; split <;> omega)
      (by rw [h1, h2]; split <;> omega)
      (by rw [h1, h3]; split <;> omega)
    rw [h1] at this
    refine ⟨this.1, this.2.1, this.2.2.1, ?_⟩
    rw [this.2.2.2, List.sum_cons]
    ring

/-- C3: from score 0, level 1 and threshold 100, after any kills of 0 to 60 points each, the
level is `1 + score / 100` (floor division) with the score below the threshold, the score is
the sum of the kills, the level after any earlier part of the sequence is not above the level
after the whole, and each kill raises the level by exactly one when it brings the score to or
past the threshold and leaves it alone otherwise. -/
theorem C3_level_progression (a0 : Application) (ds : List Int)
    (hs : a0.score = 0) (hl : a0.currentLevel = 1) (ht : a0.scoreToNextLevel = 100)
    (hds : ∀ d ∈ ds, 0 ≤ d ∧ d ≤ 60) :
    (kills ds a0).currentLevel = 1 + (kills ds a0).score / 100 ∧
    (kills ds a0).score < (kills ds a0).scoreToNextLevel ∧
    (kills ds a0).scoreToNextLevel = 100 * (kills ds a0).currentLevel ∧
    (kills ds a0).score = ds.sum ∧
    (∀ ds1 ds2, ds = ds1 ++ ds2 → (kills ds1 a0).currentLevel ≤ (kills ds a0).currentLevel) ∧
    (∀ ds1 d ds2, ds = ds1 ++ d :: ds2 →
      ((kills ds1 a0).score + d ≥ (kills ds1 a0).scoreToNextLevel →
        (kills (ds1 ++ [d]) a0).currentLevel = (kills ds1 a0).currentLevel + 1) ∧
      ((kills ds1 a0).score + d < (kills ds1 a0).scoreToNextLevel →
        (kills (ds1 ++ [d]) a0).currentLevel = (kills ds1 a0).currentLevel)) := by
  have inv := kills_invariant ds a0 hds (by rw [ht, hl]; rfl) (by rw [hl, hs]; decide)
    (by rw [hs, ht]; decide)
  refine ⟨?_, inv.2.2.1, inv.1, ?_, ?_, ?_⟩
  · have h1 := inv.1
    have h2 := inv.2.1
    have h3 := inv.2.2.1
    omega
  · rw [inv.2.2.2, hs, zero_add]
  · intro ds1 ds2 h
    rw [h, kills_append]
    exact kills_level_mono ds2 _
  · intro ds1 d ds2 _
    have : kills (ds1 ++ [d]) a0 = addScore d (kills ds1 a0) := by
      rw [kills_append]; rfl
    rw [this, addScore_level]
    constructor
    · intro h; rw [if_pos h]
    · intro h; rw [if_neg (not_le.mpr h)]

/-- Witness of C3: kills of 60, 60 and 5 points from the start state end at level 2 with
score 125. -/
theorem C3_level_progression_witness :
    (kills [60, 60, 5] (start 64 0)).currentLevel = 1 + (kills [60, 60, 5] (start 64 0)).score / 100 ∧
    (kills [60, 60, 5] (start 64 0)).score = 125 :=
  ⟨(C3_level_progression (start 64 0) [60, 60, 5] rfl rfl rfl (by decide)).1,
   (C3_level_progression (start 64 0) [60, 60, 5] rfl rfl rfl (by decide)).2.2.2.1⟩

/-! ## The inner scan -/

theorem lt_length_of_getElem? {α : Type} {l : List α} {i : Nat} {x : α} (h : l[i]? = some x) :
    i < l.length := by
  rcases List.getElem?_eq_some.mp h with ⟨hi, _⟩
  exact hi

/-- When the scan finds nothing, no asteroid passes the collision test. -/
theorem firstHit_eq_none (p : Projectile) (xs : List Asteroid) :
    firstHit p xs = none ↔ ∀ x ∈ xs, collides p x = false := by
  induction xs with
  | nil => simp [firstHit]
  | cons x xs ih =>
    by_cases hc : collides p x = true
    · simp [firstHit, hc]
    · simp only [Bool.not_eq_true] at hc
      simp [firstHit, hc, ih]

/-- The index found by the scan holds an asteroid that passes the collision test, and no
asteroid before it does. -/
theorem firstHit_eq_some (p : Projectile) (xs : List Asteroid) (i : Nat) :
    firstHit p xs = some i ↔
      (∃ x, xs[i]? = some x ∧ collides p x = true) ∧
        ∀ j y, j < i → xs[j]? = some y → collides p y = false := by
  induction xs generalizing i with
  | nil => simp [firstHit]
  | cons x xs ih =>
    by_cases hc : collides p x = true
    · simp only [firstHit, hc, if_true, Option.some.injEq]
      constructor
      · intro h
        subst h
        exact ⟨⟨x, List.getElem?_cons_zero, hc⟩, fun j y hj => absurd hj (Nat.not_lt_zero j)⟩
      · rintro ⟨_, hall⟩
        rcases Nat.eq_zero_or_pos i with h0 | hpos
        · exact h0.symm
        · have := hall 0 x hpos List.getElem?_cons_zero
          rw [hc] at this
          exact absurd this (by decide)
    · simp only [Bool.not_eq_true] at hc
      simp only [firstHit, hc, Bool.false_eq_true, if_false, Option.map_eq_some']
      constructor
      · rintro ⟨k, hk, rfl⟩
        rcases (ih k).mp hk with ⟨⟨y, hy, hyc⟩, hall⟩
        refine ⟨⟨y, by simpa using hy, hyc⟩, ?_⟩
        intro j z hj hz
        cases j with
        | zero =>
          simp only [List.getElem?_cons_zero, Option.some.injEq] at hz
          rw [← hz]; exact hc
        | succ j =>
          simp only [List.getElem?_cons_succ] at hz
          exact hall j z (by omega) hz
      · rintro ⟨⟨y, hy, hyc⟩, hall⟩
        cases i with
        | zero =>
          simp only [List.getElem?_cons_zero, Option.some.injEq] at hy
          rw [hy, hyc] at hc
          exact absurd hc (by decide)
        | succ k =>
          refine ⟨k, (ih k).mpr ⟨⟨y, by simpa using hy, hyc⟩, ?_⟩, rfl⟩
          intro j z hj hz
          exact hall (j + 1) z (by omega) (by simpa using hz)

/-! ## One hit -/

theorem eraseHit_asteroids (env : FloatEnv) (r : HitRolls) (pit ait : Nat) (x : Asteroid)
    (a : Application) (hx : a.asteroids[ait]? = some x) :
    (eraseHit env r pit ait x a).asteroids =
      a.asteroids.eraseIdx ait ++ splitChildren env a.currentShape r x := by
  simp only [eraseHit]
  exact List.eraseIdx_append_of_lt_length (lt_length_of_getElem? hx) _

theorem splitChildren_large (env : FloatEnv) (shape : AsteroidShape) (r : HitRolls)
    (x : Asteroid) (h : 1 < x.GetSize) :
    splitChildren env shape r x =
      [splitChild env shape r.child0 x env.sinHalf,
        splitChild env shape r.child1 x (-env.sinHalf)] := by
  simp [splitChildren, h]

theorem splitChildren_small (env : FloatEnv) (shape : AsteroidShape) (r : HitRolls)
    (x : Asteroid) (h : x.GetSize ≤ 1) : splitChildren env shape r x = [] := by
  simp [splitChildren, not_lt.mpr h]

theorem splitChild_placeSize (env : FloatEnv) (shape : AsteroidShape) (r : AsteroidRolls)
    (x : Asteroid) (s : ℚ) :
    (splitChild env shape r x s).placeSize = (x.position, Int.tdiv x.size 2) := rfl

/-- The element read for the score is the one that followed the hit asteroid in the vector
extended by the children. -/
theorem scoreRead_eraseHit (env : FloatEnv) (r : HitRolls) (pit ait : Nat) (x : Asteroid)
    (a : Application) :
    scoreRead ait (eraseHit env r pit ait x a) =
      (a.asteroids ++ splitChildren env a.currentShape r x)[ait + 1]? := by
  simp only [scoreRead, eraseHit]
  rw [List.getElem?_eraseIdx_of_ge _ _ _ (le_refl ait)]

/-- The read for the score is past the end exactly when the hit asteroid is the last one of
the vector and has no children. -/
theorem scoreRead_eq_none_iff (env : FloatEnv) (r : HitRolls) (pit ait : Nat) (x : Asteroid)
    (a : Application) (hx : a.asteroids[ait]? = some x) :
    scoreRead ait (eraseHit env r pit ait x a) = none ↔
      x.GetSize ≤ 1 ∧ ait + 1 = a.asteroids.length := by
  have hlt := lt_length_of_getElem? hx
  rw [scoreRead_eraseHit, List.getElem?_eq_none_iff, List.length_append]
  by_cases h : 1 < x.GetSize
  · rw [splitChildren_large env _ r x h]
    simp only [List.length_cons, List.length_nil]
    omega
  · rw [splitChildren_small env _ r x (not_lt.mp h)]
    simp only [List.length_nil]
    omega

theorem addScore_asteroids (d : Int) (a : Application) :
    (addScore d a).asteroids = a.asteroids ∨
      (addScore d a).asteroids = a.asteroids.map (fun x => x.IncreaseSpeed 30) := by
  by_cases h : a.score + d ≥ a.scoreToNextLevel
  · right; simp [addScore, h, ModifyAllAsteroids]
  · left; simp [addScore, h]

theorem addScore_projectiles (d : Int) (a : Application) :
    (addScore d a).projectiles = a.projectiles := by
  by_cases h : a.score + d ≥ a.scoreToNextLevel <;> simp [addScore, h, ModifyAllAsteroids]

theorem dropPowerUp_fields (r : HitRolls) (pos : Vector2) (a : Application) :
    (dropPowerUp r pos a).asteroids = a.asteroids ∧
    (dropPowerUp r pos a).projectiles = a.projectiles ∧
    (dropPowerUp r pos a).score = a.score ∧
    (dropPowerUp r pos a).currentLevel = a.currentLevel ∧
    (dropPowerUp r pos a).scoreToNextLevel = a.scoreToNextLevel := by
  by_cases h : r.drop < 5 <;> simp [dropPowerUp, h]

/-- The shape of a defined hit: the state is the erase state with the score of the element
read after the erase added and the power-up drop applied. -/
theorem resolveHit_eq_some (env : FloatEnv) (r : HitRolls) (pit ait : Nat) (a a1 : Application)
    (h : resolveHit env r pit ait a = some a1) :
    ∃ x y, a.asteroids[ait]? = some x ∧
      scoreRead ait (eraseHit env r pit ait x a) = some y ∧
      a1 = dropPowerUp r x.GetPosition (addScore y.GetDamage (eraseHit env r pit ait x a)) := by
  unfold resolveHit at h
  split at h
  · exact absurd h (by simp)
  · rename_i x hx
    simp only at h
    split at h
    · exact absurd h (by simp)
    · rename_i y hy
      exact ⟨x, y, hx, hy, (Option.some.inj h).symm⟩

theorem resolveHit_of_read (env : FloatEnv) (r : HitRolls) (pit ait : Nat) (a : Application)
    (x y : Asteroid) (hx : a.asteroids[ait]? = some x)
    (hy : scoreRead ait (eraseHit env r pit ait x a) = some y) :
    resolveHit env r pit ait a =
      some (dropPowerUp r x.GetPosition (addScore y.GetDamage (eraseHit env r pit ait x a))) := by
  unfold resolveHit
  simp only [hx, hy]

/-- Speeding asteroids up changes neither their positions nor their sizes. -/
theorem map_IncreaseSpeed_placeSize (xs : List Asteroid) (q : ℚ) :
    (xs.map (fun x => x.IncreaseSpeed q)).map Asteroid.placeSize = xs.map Asteroid.placeSize := by
  rw [List.map_map]
  rfl

/-- After a defined hit the asteroids are those of the erase state, possibly sped up by a
level-up, the projectile at `pit` is gone, and the score grew by the damage of the element
read after the erase. -/
theorem resolveHit_collections (env : FloatEnv) (r : HitRolls) (pit ait : Nat)
    (a a1 : Application) (x : Asteroid) (hx : a.asteroids[ait]? = some x)
    (h : resolveHit env r pit ait a = some a1) :
    (a1.asteroids = a.asteroids.eraseIdx ait ++ splitChildren env a.currentShape r x ∨
      a1.asteroids = (a.asteroids.eraseIdx ait ++ splitChildren env a.currentShape r x).map
        (fun z => z.IncreaseSpeed 30)) ∧
    a1.projectiles = a.projectiles.eraseIdx pit ∧
    ∃ y, (a.asteroids ++ splitChildren env a.currentShape r x)[ait + 1]? = some y ∧
      a1.score = a.score + y.GetDamage := by
  rcases resolveHit_eq_some env r pit ait a a1 h with ⟨x', y, hx', hy, rfl⟩
  rw [hx] at hx'
  cases Option.some.inj hx'
  have hd := dropPowerUp_fields r x.GetPosition (addScore y.GetDamage (eraseHit env r pit ait x a))
  refine ⟨?_, ?_, y, ?_, ?_⟩
  · rw [hd.1, ← eraseHit_asteroids env r pit ait x a hx]
    exact addScore_asteroids _ _
  · rw [hd.2.1, addScore_projectiles]
    rfl
  · rw [← scoreRead_eraseHit env r pit ait x a]; exact hy
  · rw [hd.2.2.1, addScore_score]
    rfl

/-! ## Score of a hit (C1) and the read after the erase (C9) -/

/-- C1 (the code at the failing input): the projectile hits the size-1 triangle (damage 5) at
index 0, which is erased; the score read then lands on the size-4 pentagon that followed it,
so the score grows by 60 and not by 5. -/
theorem C1_score_reads_next_asteroid :
    twoAsteroidWorld.projectiles[0]? = some sampleProjectile ∧
    firstHit sampleProjectile twoAsteroidWorld.asteroids = some 0 ∧
    twoAsteroidWorld.asteroids[0]? = some smallTriangle ∧
    smallTriangle.GetDamage = 5 ∧
    largePentagon.GetDamage = 60 ∧
    twoAsteroidWorld.score = 0 ∧
    (projectileStep sampleEnv sampleHitRolls 0 twoAsteroidWorld).map
      (fun s => (s.1.score, s.1.asteroids)) = some (60, [largePentagon]) := by
  decide!

/-- C9 (the code at the failing input): the projectile hits the only asteroid, of size 1;
after the erase the vector is empty, the iterator returned by the erase is the past-the-end
position (index 0 of 0 elements), and the read for the score has no element. -/
theorem C9_read_past_the_end :
    oneAsteroidWorld.projectiles[0]? = some sampleProjectile ∧
    firstHit sampleProjectile oneAsteroidWorld.asteroids = some 0 ∧
    oneAsteroidWorld.asteroids[0]? = some smallTriangle ∧
    (eraseHit sampleEnv sampleHitRolls 0 0 smallTriangle oneAsteroidWorld).asteroids = [] ∧
    scoreRead 0 (eraseHit sampleEnv sampleHitRolls 0 0 smallTriangle oneAsteroidWorld) = none ∧
    projectileStep sampleEnv sampleHitRolls 0 oneAsteroidWorld = none := by
  decide!

/-! ## Splitting (C4) -/

/-- C4: a hit on an asteroid `x` of size class above 1 removes it and pushes exactly two
asteroids, each at the position of `x` and of size class `x.size / 2` (two of size 2 for size
4, two of size 1 for size 2), so the vector grows by one; the hit is then always defined and
its final state has the same positions and sizes.  A hit on an asteroid of size class 1 (or
less) removes it and pushes nothing, so the vector shrinks by one, also in the final state
whenever the hit is defined. -/
theorem C4_split (env : FloatEnv) (r : HitRolls) (pit ait : Nat) (a : Application)
    (x : Asteroid) (hx : a.asteroids[ait]? = some x) :
    (1 < x.GetSize →
      (eraseHit env r pit ait x a).asteroids =
        a.asteroids.eraseIdx ait ++
          [splitChild env a.currentShape r.child0 x env.sinHalf,
            splitChild env a.currentShape r.child1 x (-env.sinHalf)] ∧
      (splitChild env a.currentShape r.child0 x env.sinHalf).position = x.position ∧
      (splitChild env a.currentShape r.child1 x (-env.sinHalf)).position = x.position ∧
      (splitChild env a.currentShape r.child0 x env.sinHalf).size = Int.tdiv x.size 2 ∧
      (splitChild env a.currentShape r.child1 x (-env.sinHalf)).size = Int.tdiv x.size 2 ∧
      (x.size = 4 → Int.tdiv x.size 2 = 2) ∧ (x.size = 2 → Int.tdiv x.size 2 = 1) ∧
      (eraseHit env r pit ait x a).asteroids.length = a.asteroids.length + 1 ∧
      ∃ a1, resolveHit env r pit ait a = some a1 ∧
        a1.asteroids.map Asteroid.placeSize =
          (a.asteroids.eraseIdx ait).map Asteroid.placeSize ++
            [(x.position, Int.tdiv x.size 2), (x.position, Int.tdiv x.size 2)] ∧
        a1.asteroids.length = a.asteroids.length + 1) ∧
    (x.GetSize ≤ 1 →
      (eraseHit env r pit ait x a).asteroids = a.asteroids.eraseIdx ait ∧
      (eraseHit env r pit ait x a).asteroids.length + 1 = a.asteroids.length ∧
      ∀ a1, resolveHit env r pit ait a = some a1 →
        a1.asteroids.map Asteroid.placeSize = (a.asteroids.eraseIdx ait).map Asteroid.placeSize ∧
        a1.asteroids.length + 1 = a.asteroids.length) := by
  have hlt := lt_length_of_getElem? hx
  have hlen : (a.asteroids.eraseIdx ait).length = a.asteroids.length - 1 :=
    List.length_eraseIdx_of_lt hlt
  have hE := eraseHit_asteroids env r pit ait x a hx
  constructor
  · intro hbig
    have hch := splitChildren_large env a.currentShape r x hbig
    rw [hch] at hE
    refine ⟨hE, rfl, rfl, rfl, rfl, ?_, ?_, ?_, ?_⟩
    · intro h4; rw [h4]; rfl
    · intro h2; rw [h2]; rfl
    · rw [hE, List.length_append, hlen]
      simp only [List.length_cons, List.length_nil]
      omega
    · have hsome : ∃ y, scoreRead ait (eraseHit env r pit ait x a) = some y := by
        cases hr : scoreRead ait (eraseHit env r pit ait x a) with
        | some y => exact ⟨y, rfl⟩
        | none =>
          have := (scoreRead_eq_none_iff env r pit ait x a hx).mp hr
          omega
      rcases hsome with ⟨y, hy⟩
      have hres := resolveHit_of_read env r pit ait a x y hx hy
      refine ⟨_, hres, ?_⟩
      have hc := (resolveHit_collections env r pit ait a _ x hx hres).1
      rw [hch] at hc
      have key : ∀ l : List Asteroid,
          l = a.asteroids.eraseIdx ait ++
            [splitChild env a.currentShape r.child0 x env.sinHalf,
              splitChild env a.currentShape r.child1 x (-env.sinHalf)] →
          l.map Asteroid.placeSize =
            (a.asteroids.eraseIdx ait).map Asteroid.placeSize ++
              [(x.position, Int.tdiv x.size 2), (x.position, Int.tdiv x.size 2)] ∧
          l.length = a.asteroids.length + 1 := by
        intro l hl
        subst hl
        refine ⟨by simp [splitChild_placeSize], ?_⟩
        rw [List.length_append, hlen]
        simp only [List.length_cons, List.length_nil]
        omega
      rcases hc with hc | hc
      · exact key _ hc
      · have := key _ rfl
        rw [hc, map_IncreaseSpeed_placeSize, List.length_map]
        exact this
  · intro hsmall
    have hch := splitChildren_small env a.currentShape r x hsmall
    rw [hch, List.append_nil] at hE
    refine ⟨hE, by rw [hE, hlen]; omega, ?_⟩
    intro a1 hres
    have hc := (resolveHit_collections env r pit ait a a1 x hx hres).1
    rw [hch, List.append_nil] at hc
    rcases hc with hc | hc
    · rw [hc]; exact ⟨rfl, by rw [hlen]; omega⟩
    · rw [hc, map_IncreaseSpeed_placeSize, List.length_map]
      exact ⟨rfl, by rw [hlen]; omega⟩

/-- Witness of C4: the hit on the size-2 square in front of the large pentagon leaves the
pentagon and two size-1 asteroids at the position of the square. -/
theorem C4_split_witness :
    (eraseHit sampleEnv sampleHitRolls 0 0 mediumSquare splitWorld).asteroids.length =
      splitWorld.asteroids.length + 1 ∧
    (∃ a1, resolveHit sampleEnv sampleHitRolls 0 0 splitWorld = some a1 ∧
      a1.asteroids.map Asteroid.placeSize =
        (splitWorld.asteroids.eraseIdx 0).map Asteroid.placeSize ++
          [(mediumSquare.position, Int.tdiv mediumSquare.size 2),
            (mediumSquare.position, Int.tdiv mediumSquare.size 2)] ∧
      a1.asteroids.length = splitWorld.asteroids.length + 1) ∧
    (eraseHit sampleEnv sampleHitRolls 0 0 smallTriangle twoAsteroidWorld).asteroids.length + 1 =
      twoAsteroidWorld.asteroids.length :=
  ⟨((C4_split sampleEnv sampleHitRolls 0 0 splitWorld mediumSquare rfl).1
      (by decide)).2.2.2.2.2.2.2.1,
   ((C4_split sampleEnv sampleHitRolls 0 0 splitWorld mediumSquare rfl).1
      (by decide)).2.2.2.2.2.2.2.2,
   ((C4_split sampleEnv sampleHitRolls 0 0 twoAsteroidWorld smallTriangle rfl).2
      (by decide)).2.1⟩

/-! ## First hit wins (C10) -/

theorem projectileStep_miss (env : FloatEnv) (r : HitRolls) (pit : Nat) (a : Application)
    (p : Projectile) (hp : a.projectiles[pit]? = some p)
    (h : firstHit p a.asteroids = none) : projectileStep env r pit a = some (a, pit + 1) := by
  simp only [projectileStep, hp, h]

theorem projectileStep_hit (env : FloatEnv) (r : HitRolls) (pit ait : Nat) (a : Application)
    (p : Projectile) (hp : a.projectiles[pit]? = some p)
    (h : firstHit p a.asteroids = some ait) :
    projectileStep env r pit a = (resolveHit env r pit ait a).map (fun a1 => (a1, pit)) := by
  simp only [projectileStep, hp, h]

/-- Each pass of the outer loop handles exactly one projectile: the number of projectiles
from `pit` to the end drops by one, whether the projectile was erased or stepped over. -/
theorem projectileStep_remaining (env : FloatEnv) (r : HitRolls) (pit pit1 : Nat)
    (a a1 : Application) (hs : projectileStep env r pit a = some (a1, pit1)) :
    pit < a.projectiles.length ∧ pit1 ≤ a1.projectiles.length ∧
      a1.projectiles.length - pit1 + 1 = a.projectiles.length - pit := by
  cases hp : a.projectiles[pit]? with
  | none => simp [projectileStep, hp] at hs
  | some p =>
    have hplt := lt_length_of_getElem? hp
    cases hf : firstHit p a.asteroids with
    | none =>
      rw [projectileStep_miss env r pit a p hp hf] at hs
      have h1 : a = a1 := congrArg Prod.fst (Option.some.inj hs)
      have h2 : pit + 1 = pit1 := congrArg Prod.snd (Option.some.inj hs)
      subst h1; subst h2
      exact ⟨hplt, hplt, by omega⟩
    | some ait =>
      rcases (firstHit_eq_some p a.asteroids ait).mp hf with ⟨⟨x, hx, _⟩, _⟩
      rw [projectileStep_hit env r pit ait a p hp hf, Option.map_eq_some'] at hs
      rcases hs with ⟨a2, hres, heq⟩
      have h1 : a2 = a1 := congrArg Prod.fst heq
      have h2 : pit = pit1 := congrArg Prod.snd heq
      subst h1; subst h2
      have hlen := congrArg List.length (resolveHit_collections env r pit ait a a2 x hx hres).2.1
      rw [List.length_eraseIdx_of_lt hplt] at hlen
      exact ⟨hplt, by omega, by omega⟩

/-! ### The pass as a whole -/

theorem frame_eq_some (env : FloatEnv) (i : FrameInput) (a a1 : Application) (n : Nat)
    (hf : frame env i a = some (a1, n)) :
    ∃ a6 a9, shooting env i.dt i.keySpace (beforeShooting i a) = some (a6, n) ∧
      projectileAsteroidCollisions env i.hitRolls (beforeCollisions i a6) = some a9 ∧
      a1 = asteroidShipCollisions i.dt (powerUpPass i.dt a9) := by
  unfold frame at hf
  simp only at hf
  split at hf
  · exact absurd hf (by simp)
  · rename_i a6 shots hshoot
    split at hf
    · exact absurd hf (by simp)
    · rename_i a9 hcol
      have h1 : asteroidShipCollisions i.dt (powerUpPass i.dt a9) = a1 :=
        congrArg Prod.fst (Option.some.inj hf)
      have h2 : shots = n := congrArg Prod.snd (Option.some.inj hf)
      subst h2
      exact ⟨a6, a9, hshoot, hcol, h1.symm⟩

theorem eraseIdx_length_append {α : Type} (kept : List α) (p : α) (ps : List α) :
    (kept ++ p :: ps).eraseIdx kept.length = kept ++ ps := by
  induction kept with
  | nil => rfl
  | cons q kept ih => simp only [List.cons_append, List.length_cons, List.eraseIdx_cons_succ, ih]

theorem addScore_setProjectiles (d : Int) (a : Application) (ps : List Projectile) :
    addScore d { a with projectiles := ps } = { addScore d a with projectiles := ps } := by
  by_cases h : a.score + d ≥ a.scoreToNextLevel <;> simp [addScore, h, ModifyAllAsteroids]

theorem dropPowerUp_setProjectiles (r : HitRolls) (pos : Vector2) (a : Application)
    (ps : List Projectile) :
    dropPowerUp r pos { a with projectiles := ps } =
      { dropPowerUp r pos a with projectiles := ps } := by
  by_cases h : r.drop < 5 <;> simp [dropPowerUp, h]

/-- A hit touches the projectiles only by erasing the one at `pit`: with the projectiles
`kept ++ p :: ps` and `pit` the position of `p`, the hit is the hit computed with the
projectiles `p :: ps` at position 0, with `kept` put back in front. -/
theorem resolveHit_prefix (env : FloatEnv) (r : HitRolls) (ait : Nat) (a : Application)
    (kept : List Projectile) (p : Projectile) (ps : List Projectile)
    (ha : a.projectiles = kept ++ p :: ps) :
    resolveHit env r kept.length ait a =
      (resolveHit env r 0 ait { a with projectiles := p :: ps }).map
        (fun a1 => { a1 with projectiles := kept ++ a1.projectiles }) := by
  unfold resolveHit
  cases hx : a.asteroids[ait]? with
  | none => simp [hx]
  | some x =>
    simp only [hx]
    have hsr : scoreRead ait (eraseHit env r 0 ait x { a with projectiles := p :: ps }) =
        scoreRead ait (eraseHit env r kept.length ait x a) := rfl
    rw [hsr]
    cases hy : scoreRead ait (eraseHit env r kept.length ait x a) with
    | none => rfl
    | some y =>
      simp only [Option.map_some', Option.some.injEq]
      have he1 : eraseHit env r kept.length ait x a =
          { eraseHit env r 0 ait x { a with projectiles := p :: ps } with
            projectiles := kept ++ ps } := by
        simp only [eraseHit, ha, eraseIdx_length_append]
      rw [he1, addScore_setProjectiles, dropPowerUp_setProjectiles]
      have hp0 : (dropPowerUp r x.GetPosition (addScore y.GetDamage
          (eraseHit env r 0 ait x { a with projectiles := p :: ps }))).projectiles = ps := by
        rw [(dropPowerUp_fields _ _ _).2.1, addScore_projectiles]
        rfl
      rw [hp0]

theorem firstHitPass_setProjectiles (env : FloatEnv) (rolls : Nat → HitRolls) (k : Nat)
    (ps qs : List Projectile) (a : Application) :
    firstHitPass env rolls k ps { a with projectiles := qs } = firstHitPass env rolls k ps a := by
  induction ps generalizing k a qs with
  | nil => rfl
  | cons p ps ih =>
    simp only [firstHitPass]
    cases hf : firstHit p a.asteroids with
    | none => simp only [ih]
    | some ait => rfl

/-- The iterator loop agrees with the pass over the list of projectiles: with the
projectiles `kept ++ rest` and the iterator at the start of `rest`, the loop handles `rest`
as `firstHitPass` does and leaves `kept` in front. -/
theorem collisionLoop_eq_firstHitPass (env : FloatEnv) (rolls : Nat → HitRolls)
    (rest kept : List Projectile) (k : Nat) (a : Application)
    (ha : a.projectiles = kept ++ rest) :
    collisionLoop env rolls rest.length k kept.length a =
      (firstHitPass env rolls k rest a).map
        (fun a1 => { a1 with projectiles := kept ++ a1.projectiles }) := by
  induction rest generalizing kept k a with
  | nil =>
    simp only [List.length_nil, collisionLoop, firstHitPass, Option.map_some', List.append_nil,
      Option.some.injEq]
    rw [List.append_nil] at ha
    rw [← ha]
  | cons p ps ih =>
    have hp : a.projectiles[kept.length]? = some p := by
      rw [ha, List.getElem?_append_right (Nat.le_refl _)]; simp
    simp only [List.length_cons, collisionLoop, firstHitPass]
    cases hf : firstHit p a.asteroids with
    | none =>
      rw [projectileStep_miss env (rolls k) kept.length a p hp hf]
      simp only
      have := ih (kept ++ [p]) (k + 1) a (by rw [ha]; simp)
      rw [List.length_append, List.length_singleton] at this
      rw [this, Option.map_map]
      congr 1
      funext a1
      simp
    | some ait =>
      rw [projectileStep_hit env (rolls k) kept.length ait a p hp hf,
        resolveHit_prefix env (rolls k) ait a kept p ps ha]
      cases hr : resolveHit env (rolls k) 0 ait { a with projectiles := p :: ps } with
      | none => simp [hr]
      | some a1 =>
        simp only [Option.map_some', hr]
        have hproj : a1.projectiles = ps := by
          have hx : ∃ x, a.asteroids[ait]? = some x := by
            rcases resolveHit_eq_some env (rolls k) 0 ait _ a1 hr with ⟨x, _, hx, _, _⟩
            exact ⟨x, hx⟩
          rcases hx with ⟨x, hx⟩
          have := (resolveHit_collections env (rolls k) 0 ait
            { a with projectiles := p :: ps } a1 x hx hr).2.1
          rw [this]; rfl
        rw [ih kept (k + 1) { a1 with projectiles := kept ++ a1.projectiles }
          (by rw [hproj]), firstHitPass_setProjectiles]

theorem pass_eq_firstHitPass (env : FloatEnv) (rolls : Nat → HitRolls) (a : Application) :
    projectileAsteroidCollisions env rolls a = firstHitPass env rolls 0 a.projectiles a := by
  have := collisionLoop_eq_firstHitPass env rolls a.projectiles [] 0 a rfl
  simp only [List.length_nil, List.nil_append] at this
  unfold projectileAsteroidCollisions
  rw [this]
  cases firstHitPass env rolls 0 a.projectiles a <;> rfl

theorem firstHitPass_sublist (env : FloatEnv) (rolls : Nat → HitRolls) (ps : List Projectile)
    (k : Nat) (a a1 : Application) (h : firstHitPass env rolls k ps a = some a1) :
    a1.projectiles.Sublist ps := by
  induction ps generalizing k a a1 with
  | nil =>
    simp only [firstHitPass, Option.some.injEq] at h
    rw [← h]
  | cons p ps ih =>
    simp only [firstHitPass] at h
    split at h
    · rw [Option.map_eq_some'] at h
      rcases h with ⟨a2, h2, rfl⟩
      exact (ih (k + 1) a a2 h2).cons₂ p
    · split at h
      · exact absurd h (by simp)
      · rename_i a2 _
        exact (ih (k + 1) a2 a1 h).cons p

/-- A step removes at most one asteroid more than it adds, and only together with its
projectile. -/
theorem projectileStep_count (env : FloatEnv) (r : HitRolls) (pit pit1 : Nat)
    (a a1 : Application) (hs : projectileStep env r pit a = some (a1, pit1)) :
    a.asteroids.length + a1.projectiles.length ≤ a1.asteroids.length + a.projectiles.length := by
  cases hp : a.projectiles[pit]? with
  | none => simp [projectileStep, hp] at hs
  | some p =>
    have hplt := lt_length_of_getElem? hp
    cases hf : firstHit p a.asteroids with
    | none =>
      rw [projectileStep_miss env r pit a p hp hf] at hs
      have h1 : a = a1 := congrArg Prod.fst (Option.some.inj hs)
      subst h1
      omega
    | some ait =>
      rcases (firstHit_eq_some p a.asteroids ait).mp hf with ⟨⟨x, hx, _⟩, _⟩
      rw [projectileStep_hit env r pit ait a p hp hf, Option.map_eq_some'] at hs
      rcases hs with ⟨a2, hres, heq⟩
      have h1 : a2 = a1 := congrArg Prod.fst heq
      subst h1
      have hc := resolveHit_collections env r pit ait a a2 x hx hres
      have hlen := congrArg List.length hc.2.1
      rw [List.length_eraseIdx_of_lt hplt] at hlen
      have hal : a.asteroids.length - 1 ≤ a2.asteroids.length := by
        have hxl := lt_length_of_getElem? hx
        rcases hc.1 with h | h <;>
          · rw [h]
            simp only [List.length_map, List.length_append, List.length_eraseIdx_of_lt hxl]
            omega
      omega

theorem collisionLoop_count (env : FloatEnv) (rolls : Nat → HitRolls) (n k pit : Nat)
    (a a1 : Application) (hs : collisionLoop env rolls n k pit a = some a1) :
    a.asteroids.length + a1.projectiles.length ≤ a1.asteroids.length + a.projectiles.length := by
  induction n generalizing k pit a with
  | zero =>
    simp only [collisionLoop, Option.some.injEq] at hs
    rw [← hs]
  | succ n ih =>
    simp only [collisionLoop] at hs
    split at hs
    · exact absurd hs (by simp)
    · rename_i a2 pit2 hstep
      have h1 := projectileStep_count env (rolls k) pit pit2 a a2 hstep
      have h2 := ih (k + 1) pit2 a2 hs
      omega

/-- C10: for the projectile `p` at index `pit`: when no asteroid passes the collision test
the step leaves the state (both collections) unchanged and moves on to the next projectile;
when some asteroid does, the hit is resolved against the first such asteroid in vector order
(index `ait`), whatever the distances: the projectile at `pit` is erased, exactly the
asteroid at `ait` is erased (its children, if any, are appended, and a level-up may speed
the asteroids up), and the step is undefined only when the read after the erase is past the
end; in a defined step the projectile is erased exactly when some asteroid passes the test.
The whole pass of a frame is the pass over the list of projectiles in which each projectile
is handled once, in order, in this way (`firstHitPass`); a defined pass leaves a sublist of
the projectiles and shrinks the asteroid collection by at most the number of projectiles it
removed; and the collision block of every frame is this pass. -/
theorem C10_first_hit_wins (env : FloatEnv) (r : HitRolls) (pit : Nat) (a : Application)
    (p : Projectile) (hp : a.projectiles[pit]? = some p) :
    ((∀ x ∈ a.asteroids, collides p x = false) → projectileStep env r pit a = some (a, pit + 1)) ∧
    (∀ ait x, a.asteroids[ait]? = some x → collides p x = true →
      (∀ j y, j < ait → a.asteroids[j]? = some y → collides p y = false) →
      firstHit p a.asteroids = some ait ∧
      (eraseHit env r pit ait x a).projectiles = a.projectiles.eraseIdx pit ∧
      (eraseHit env r pit ait x a).asteroids =
        a.asteroids.eraseIdx ait ++ splitChildren env a.currentShape r x ∧
      (projectileStep env r pit a = none ↔ x.GetSize ≤ 1 ∧ ait + 1 = a.asteroids.length) ∧
      ∀ a1 pit1, projectileStep env r pit a = some (a1, pit1) →
        pit1 = pit ∧ a1.projectiles = a.projectiles.eraseIdx pit ∧
        (a1.asteroids = a.asteroids.eraseIdx ait ++ splitChildren env a.currentShape r x ∨
          a1.asteroids = (a.asteroids.eraseIdx ait ++ splitChildren env a.currentShape r x).map
            (fun z => z.IncreaseSpeed 30))) ∧
    (∀ a1 pit1, projectileStep env r pit a = some (a1, pit1) →
      (a1.projectiles = a.projectiles.eraseIdx pit ↔ ∃ x ∈ a.asteroids, collides p x = true)) ∧
    (∀ (rolls : Nat → HitRolls) (b : Application),
      projectileAsteroidCollisions env rolls b = firstHitPass env rolls 0 b.projectiles b) ∧
    (∀ (rolls : Nat → HitRolls) (b b1 : Application),
      projectileAsteroidCollisions env rolls b = some b1 →
        b1.projectiles.Sublist b.projectiles ∧
        b.asteroids.length + b1.projectiles.length ≤
          b1.asteroids.length + b.projectiles.length) ∧
    (∀ (i : FrameInput) (b b1 : Application) (n : Nat), frame env i b = some (b1, n) →
      ∃ b6 b9, shooting env i.dt i.keySpace (beforeShooting i b) = some (b6, n) ∧
        firstHitPass env i.hitRolls 0 (beforeCollisions i b6).projectiles
          (beforeCollisions i b6) = some b9 ∧
        b1 = asteroidShipCollisions i.dt (powerUpPass i.dt b9)) := by
  have hplt := lt_length_of_getElem? hp
  refine ⟨?_, ?_, ?_, ?_, ?_, ?_⟩
  · intro hnone
    exact projectileStep_miss env r pit a p hp ((firstHit_eq_none p a.asteroids).mpr hnone)
  · intro ait x hx hc hfirst
    have hf : firstHit p a.asteroids = some ait :=
      (firstHit_eq_some p a.asteroids ait).mpr ⟨⟨x, hx, hc⟩, hfirst⟩
    have hstep := projectileStep_hit env r pit ait a p hp hf
    refine ⟨hf, rfl, eraseHit_asteroids env r pit ait x a hx, ?_, ?_⟩
    · rw [hstep, Option.map_eq_none', ← scoreRead_eq_none_iff env r pit ait x a hx]
      constructor
      · intro hnone
        cases hr : scoreRead ait (eraseHit env r pit ait x a) with
        | none => rfl
        | some y =>
          rw [resolveHit_of_read env r pit ait a x y hx hr] at hnone
          exact absurd hnone (by simp)
      · intro hr
        unfold resolveHit
        simp only [hx, hr]
    · intro a1 pit1 hs
      rw [hstep, Option.map_eq_some'] at hs
      rcases hs with ⟨a2, hres, heq⟩
      have h1 : a2 = a1 := congrArg Prod.fst heq
      have h2 : pit = pit1 := congrArg Prod.snd heq
      subst h1
      have hc := resolveHit_collections env r pit ait a a2 x hx hres
      exact ⟨h2.symm, hc.2.1, hc.1⟩
  · intro a1 pit1 hs
    cases hf : firstHit p a.asteroids with
    | none =>
      rw [projectileStep_miss env r pit a p hp hf] at hs
      cases hs
      have hall := (firstHit_eq_none p a.asteroids).mp hf
      constructor
      · intro heq
        have := congrArg List.length heq
        rw [List.length_eraseIdx_of_lt hplt] at this
        omega
      · rintro ⟨x, hxm, hxc⟩
        rw [hall x hxm] at hxc
        exact absurd hxc (by decide)
    | some ait =>
      rcases (firstHit_eq_some p a.asteroids ait).mp hf with ⟨⟨x, hx, hc⟩, _⟩
      rw [projectileStep_hit env r pit ait a p hp hf, Option.map_eq_some'] at hs
      rcases hs with ⟨a2, hres, heq⟩
      have h1 : a2 = a1 := congrArg Prod.fst heq
      subst h1
      have := resolveHit_collections env r pit ait a a2 x hx hres
      exact ⟨fun _ => ⟨x, List.getElem?_mem hx, hc⟩, fun _ => this.2.1⟩
  · exact fun rolls b => pass_eq_firstHitPass env rolls b
  · intro rolls b b1 hb
    refine ⟨?_, collisionLoop_count env rolls _ 0 0 b b1 hb⟩
    rw [pass_eq_firstHitPass] at hb
    exact firstHitPass_sublist env rolls b.projectiles 0 b b1 hb
  · intro i b b1 n hf
    rcases frame_eq_some env i b b1 n hf with ⟨b6, b9, h6, h9, h1⟩
    rw [pass_eq_firstHitPass] at h9
    exact ⟨b6, b9, h6, h9, h1⟩

/-- Witness of C10: in `crowdedWorld` the projectile overlaps the asteroids at indices 1, 2
and 3 and not the one at index 0; the one at index 1 is the farthest of the three, and it is
the one destroyed (split into two), while the nearest (index 2) and the last (index 3) stay;
the second projectile overlaps nothing, its step changes nothing, and the pass keeps it. -/
theorem C10_first_hit_wins_witness :
    firstHit sampleProjectile crowdedWorld.asteroids = some 1 ∧
    (0 = 0 ∧ afterCrowdedHit.projectiles = crowdedWorld.projectiles.eraseIdx 0 ∧
      (afterCrowdedHit.asteroids = crowdedWorld.asteroids.eraseIdx 1 ++
          splitChildren sampleEnv crowdedWorld.currentShape sampleHitRolls offsetSquare ∨
        afterCrowdedHit.asteroids = (crowdedWorld.asteroids.eraseIdx 1 ++
          splitChildren sampleEnv crowdedWorld.currentShape sampleHitRolls offsetSquare).map
            (fun z => z.IncreaseSpeed 30))) ∧
    projectileStep sampleEnv sampleHitRolls 1 crowdedWorld = some (crowdedWorld, 2) ∧
    (projectileAsteroidCollisions sampleEnv (fun _ => sampleHitRolls) crowdedWorld).map
        (fun b => (b.projectiles, b.asteroids.map Asteroid.placeSize)) =
      some ([farProjectile],
        [(⟨800, 800⟩, 4), (⟨100, 100⟩, 1), (⟨110, 100⟩, 4), (⟨120, 100⟩, 1), (⟨120, 100⟩, 1)]) ∧
    distSq sampleProjectile.position smallTriangle.position <
      distSq sampleProjectile.position offsetSquare.position := by
  have hfirst : ∀ j y, j < 1 → crowdedWorld.asteroids[j]? = some y →
      collides sampleProjectile y = false := by
    intro j y hj hy
    have hj0 : j = 0 := by omega
    subst hj0
    have hy' : largePentagon = y := Option.some.inj hy
    rw [← hy']
    decide!
  have hhit := (C10_first_hit_wins sampleEnv sampleHitRolls 0 crowdedWorld sampleProjectile
    rfl).2.1 1 offsetSquare rfl (by decide!) hfirst
  refine ⟨hhit.1, hhit.2.2.2.2 afterCrowdedHit 0 (by decide!), ?_, ?_, by decide!⟩
  · exact (C10_first_hit_wins sampleEnv sampleHitRolls 1 crowdedWorld farProjectile rfl).1
      (by decide!)
  · rw [(C10_first_hit_wins sampleEnv sampleHitRolls 0 crowdedWorld sampleProjectile
      rfl).2.2.2.1 (fun _ => sampleHitRolls) crowdedWorld]
    decide!

/-! ## Power-up pickup (C8) -/

theorem powerUpLoop_cons (dt : ℚ) (p : PowerUp) (rest : List PowerUp) (s : PlayerShip) :
    powerUpLoop dt (p :: rest) s =
      if p.timer + dt ≥ p.lifetime then powerUpLoop dt rest s
      else if distLt s.GetPosition p.position (s.GetRadius + p.radius) then
        powerUpLoop dt rest (applyPowerUp p.type s)
      else
        ({ p with timer := p.timer + dt } :: (powerUpLoop dt rest s).1,
          (powerUpLoop dt rest s).2) := rfl

/-- The loop over a concatenation runs over the first part, then over the second part with
the ship left by the first. -/
theorem powerUpLoop_append (dt : ℚ) (xs ys : List PowerUp) (s : PlayerShip) :
    powerUpLoop dt (xs ++ ys) s =
      ((powerUpLoop dt xs s).1 ++ (powerUpLoop dt ys (powerUpLoop dt xs s).2).1,
        (powerUpLoop dt ys (powerUpLoop dt xs s).2).2) := by
  induction xs generalizing s with
  | nil => rfl
  | cons p rest ih =>
    rw [List.cons_append, powerUpLoop_cons, powerUpLoop_cons]
    by_cases h1 : p.timer + dt ≥ p.lifetime
    · rw [if_pos h1, if_pos h1]; exact ih s
    · rw [if_neg h1, if_neg h1]
      by_cases h2 : distLt s.GetPosition p.position (s.GetRadius + p.radius) = true
      · rw [if_pos h2, if_pos h2]; exact ih _
      · rw [if_neg h2, if_neg h2, ih s]
        rfl

/-- The loop at one power-up: for a power-up `p` of lifetime 5 and radius 20 with age `p.timer`, standing in the
collection between `pre` and `post`, and the ship `s1` as the loop has left it when it
reaches `p`: if `p.timer + dt ≥ 5` then `p` is dropped and the loop goes on with `s1`
unchanged, whether or not `p` overlaps the ship; otherwise, if `p` overlaps the ship, `p` is
dropped and the loop goes on with the effect applied once to `s1` (`TakeDamage(-20)` for
HEALTH; the triple-shot flag set and its timer set to 5 for TRIPLE_SHOT); otherwise `p`
stays, with age `p.timer + dt`, and the loop goes on with `s1` unchanged. -/
theorem powerUpLoop_step (dt : ℚ) (pre post : List PowerUp) (p : PowerUp) (player : PlayerShip)
    (hl : p.lifetime = 5) (hr : p.radius = 20) :
    (p.timer + dt ≥ 5 →
      powerUpLoop dt (pre ++ p :: post) player =
        ((powerUpLoop dt pre player).1 ++ (powerUpLoop dt post (powerUpLoop dt pre player).2).1,
          (powerUpLoop dt post (powerUpLoop dt pre player).2).2)) ∧
    (p.timer + dt < 5 →
      distLt (powerUpLoop dt pre player).2.GetPosition p.position
        ((powerUpLoop dt pre player).2.GetRadius + 20) = true →
      powerUpLoop dt (pre ++ p :: post) player =
        ((powerUpLoop dt pre player).1 ++
            (powerUpLoop dt post (applyPowerUp p.type (powerUpLoop dt pre player).2)).1,
          (powerUpLoop dt post (applyPowerUp p.type (powerUpLoop dt pre player).2)).2) ∧
      (p.type = PowerUpType.HEALTH →
        applyPowerUp p.type (powerUpLoop dt pre player).2 =
          (powerUpLoop dt pre player).2.TakeDamage (-20)) ∧
      (p.type = PowerUpType.TRIPLE_SHOT →
        applyPowerUp p.type (powerUpLoop dt pre player).2 =
          { (powerUpLoop dt pre player).2 with tripleShotActive := true, tripleShotTimer := 5 })) ∧
    (p.timer + dt < 5 →
      distLt (powerUpLoop dt pre player).2.GetPosition p.position
        ((powerUpLoop dt pre player).2.GetRadius + 20) = false →
      powerUpLoop dt (pre ++ p :: post) player =
        ((powerUpLoop dt pre player).1 ++
            { p with timer := p.timer + dt } ::
              (powerUpLoop dt post (powerUpLoop dt pre player).2).1,
          (powerUpLoop dt post (powerUpLoop dt pre player).2).2)) := by
  refine ⟨?_, ?_, ?_⟩
  · intro hexp
    rw [powerUpLoop_append, powerUpLoop_cons, hl, if_pos hexp]
  · intro hlive hov
    refine ⟨?_, ?_, ?_⟩
    · rw [powerUpLoop_append, powerUpLoop_cons, hl, hr, if_neg (not_le.mpr hlive), if_pos hov]
    · intro ht; rw [ht]; rfl
    · intro ht; rw [ht]; rfl
  · intro hlive hov
    rw [powerUpLoop_append, powerUpLoop_cons, hl, hr, if_neg (not_le.mpr hlive),
      if_neg (by rw [hov]; decide)]

/-- The frame applies the power-up block to the state left by the collision block. -/
theorem frame_powerUps (env : FloatEnv) (i : FrameInput) (a a1 : Application) (n : Nat)
    (hf : frame env i a = some (a1, n)) :
    ∃ a6 a9, shooting env i.dt i.keySpace (beforeShooting i a) = some (a6, n) ∧
      projectileAsteroidCollisions env i.hitRolls (beforeCollisions i a6) = some a9 ∧
      a1.powerUps = (powerUpPass i.dt a9).powerUps ∧
      a1.player = (shipCollisionLoop i.dt a9.asteroids (powerUpPass i.dt a9).player).2 := by
  rcases frame_eq_some env i a a1 n hf with ⟨a6, a9, h6, h9, h1⟩
  exact ⟨a6, a9, h6, h9, by rw [h1]; rfl, by rw [h1]; rfl⟩

/-- C8: in the power-up block of a frame of length `dt`, for a power-up `p` of lifetime 5 and
radius 20 with age `p.timer`, standing in the world's collection between `pre` and `post`,
and the ship `s1` as the block has left it when it reaches `p`: if `p.timer + dt ≥ 5` then
`p` is removed and the block goes on with `s1` unchanged, whether or not `p` overlaps the
ship; otherwise, if `p` overlaps the ship, `p` is removed and the block goes on with the
effect applied once to `s1` (`TakeDamage(-20)` for HEALTH; the triple-shot flag set and its
timer set to 5 for TRIPLE_SHOT); otherwise `p` stays, with age `p.timer + dt`, and the block
goes on with `s1` unchanged.  Nothing but the collection and the ship changes, and every
frame applies this block to the state left by its collision block. -/
theorem C8_powerUp_step (dt : ℚ) (a : Application) (pre post : List PowerUp) (p : PowerUp)
    (ha : a.powerUps = pre ++ p :: post) (hl : p.lifetime = 5) (hr : p.radius = 20) :
    (p.timer + dt ≥ 5 →
      powerUpPass dt a =
        { a with
          powerUps := (powerUpLoop dt pre a.player).1 ++
            (powerUpLoop dt post (powerUpLoop dt pre a.player).2).1
          player := (powerUpLoop dt post (powerUpLoop dt pre a.player).2).2 }) ∧
    (p.timer + dt < 5 →
      distLt (powerUpLoop dt pre a.player).2.GetPosition p.position
        ((powerUpLoop dt pre a.player).2.GetRadius + 20) = true →
      powerUpPass dt a =
        { a with
          powerUps := (powerUpLoop dt pre a.player).1 ++
            (powerUpLoop dt post (applyPowerUp p.type (powerUpLoop dt pre a.player).2)).1
          player :=
            (powerUpLoop dt post (applyPowerUp p.type (powerUpLoop dt pre a.player).2)).2 } ∧
      (p.type = PowerUpType.HEALTH →
        applyPowerUp p.type (powerUpLoop dt pre a.player).2 =
          (powerUpLoop dt pre a.player).2.TakeDamage (-20)) ∧
      (p.type = PowerUpType.TRIPLE_SHOT →
        applyPowerUp p.type (powerUpLoop dt pre a.player).2 =
          { (powerUpLoop dt pre a.player).2 with
            tripleShotActive := true, tripleShotTimer := 5 })) ∧
    (p.timer + dt < 5 →
      distLt (powerUpLoop dt pre a.player).2.GetPosition p.position
        ((powerUpLoop dt pre a.player).2.GetRadius + 20) = false →
      powerUpPass dt a =
        { a with
          powerUps := (powerUpLoop dt pre a.player).1 ++
            { p with timer := p.timer + dt } ::
              (powerUpLoop dt post (powerUpLoop dt pre a.player).2).1
          player := (powerUpLoop dt post (powerUpLoop dt pre a.player).2).2 }) ∧
    (∀ (env : FloatEnv) (i : FrameInput) (b b1 : Application) (n : Nat),
      frame env i b = some (b1, n) →
      ∃ b6 b9, shooting env i.dt i.keySpace (beforeShooting i b) = some (b6, n) ∧
        projectileAsteroidCollisions env i.hitRolls (beforeCollisions i b6) = some b9 ∧
        b1.powerUps = (powerUpPass i.dt b9).powerUps ∧
        b1.player = (shipCollisionLoop i.dt b9.asteroids (powerUpPass i.dt b9).player).2) := by
  have hloop := powerUpLoop_step dt pre post p a.player hl hr
  refine ⟨?_, ?_, ?_, fun env i b b1 n hf => frame_powerUps env i b b1 n hf⟩
  · intro hexp
    simp only [powerUpPass, ha, hloop.1 hexp]
  · intro hlive hov
    have := hloop.2.1 hlive hov
    refine ⟨?_, this.2.1, this.2.2⟩
    simp only [powerUpPass, ha, this.1]
  · intro hlive hov
    simp only [powerUpPass, ha, hloop.2.2 hlive hov]

/-- Witness of C8 on the ship at HP 80 and a frame of 1/60 s: alone in the collection, the
power-up of age 5 is removed without effect although it lies on the ship, the fresh HEALTH
power-up on the ship is removed and heals once, and the far power-up stays with age 1/60;
with the three together the block leaves the far one and the healed ship, and so does the
whole frame. -/
theorem C8_powerUp_step_witness :
    powerUpPass (1 / 60) { powerUpWorld with powerUps := [oldPowerUp] } =
      { powerUpWorld with powerUps := [], player := hurtShip } ∧
    powerUpPass (1 / 60) { powerUpWorld with powerUps := [healthAtShip] } =
      { powerUpWorld with powerUps := [], player := hurtShip.TakeDamage (-20) } ∧
    powerUpPass (1 / 60) { powerUpWorld with powerUps := [farPowerUp] } =
      { powerUpWorld with
        powerUps := [{ farPowerUp with timer := farPowerUp.timer + 1 / 60 }]
        player := hurtShip } ∧
    powerUpPass (1 / 60) powerUpWorld =
      { powerUpWorld with
        powerUps := [{ farPowerUp with timer := farPowerUp.timer + 1 / 60 }]
        player := hurtShip.TakeDamage (-20) } ∧
    (hurtShip.TakeDamage (-20)).hp = 100 ∧
    (∃ b6 b9,
      shooting sampleEnv tickFrame.dt tickFrame.keySpace (beforeShooting tickFrame powerUpWorld) =
        some (b6, 0) ∧
      projectileAsteroidCollisions sampleEnv tickFrame.hitRolls (beforeCollisions tickFrame b6) =
        some b9 ∧
      ((frame sampleEnv tickFrame powerUpWorld).getD (powerUpWorld, 7)).1.powerUps =
        (powerUpPass tickFrame.dt b9).powerUps ∧
      ((frame sampleEnv tickFrame powerUpWorld).getD (powerUpWorld, 7)).1.player =
        (shipCollisionLoop tickFrame.dt b9.asteroids (powerUpPass tickFrame.dt b9).player).2) ∧
    (frame sampleEnv tickFrame powerUpWorld).map (fun s => (s.1.powerUps, s.1.player.hp)) =
      some ([{ farPowerUp with timer := farPowerUp.timer + 1 / 60 }], 100) :=
  ⟨(C8_powerUp_step (1 / 60) { powerUpWorld with powerUps := [oldPowerUp] } [] []
      oldPowerUp rfl rfl rfl).1 (by decide!),
   ((C8_powerUp_step (1 / 60) { powerUpWorld with powerUps := [healthAtShip] } [] []
      healthAtShip rfl rfl rfl).2.1 (by decide!) (by decide!)).1,
   (C8_powerUp_step (1 / 60) { powerUpWorld with powerUps := [farPowerUp] } [] []
      farPowerUp rfl rfl rfl).2.2.1 (by decide!) (by decide!),
   (((C8_powerUp_step (1 / 60) powerUpWorld [oldPowerUp] [farPowerUp]
      healthAtShip rfl rfl rfl).2.1 (by decide!) (by decide!)).1).trans (by decide!),
   by decide,
   (C8_powerUp_step (1 / 60) powerUpWorld [] [healthAtShip, farPowerUp] oldPowerUp
     rfl rfl rfl).2.2.2
     sampleEnv tickFrame powerUpWorld
     ((frame sampleEnv tickFrame powerUpWorld).getD (powerUpWorld, 7)).1 0 (by decide!),
   by decide!⟩

/-! ## The asteroid invariant (C6) -/

theorem init_size (w h : Int) (r : AsteroidRolls) (n : Nat) :
    (Asteroid.init w h r n).size = 1 ∨ (Asteroid.init w h r n).size = 2 ∨
      (Asteroid.init w h r n).size = 4 := by
  rcases r with ⟨shape, ⟨sz, hsz⟩, edge, edgeU, dir, speedU, rotSpeedU, rotationU⟩
  interval_cases sz <;> simp [Asteroid.init]

theorem MakeAsteroid_WF (w h : Int) (shape : AsteroidShape) (r : AsteroidRolls) :
    (MakeAsteroid w h shape r).WF := by
  have hT : (TriangleAsteroid w h r).WF := ⟨init_size w h r 3, Or.inl rfl⟩
  have hS : (SquareAsteroid w h r).WF := ⟨init_size w h r 4, Or.inr (Or.inl rfl)⟩
  have hP : (PentagonAsteroid w h r).WF := ⟨init_size w h r 5, Or.inr (Or.inr rfl)⟩
  unfold MakeAsteroid
  cases shape
  · exact hT
  · exact hS
  · exact hP
  · simp only
    split
    · exact hT
    · exact hS
    · exact hP

theorem splitChildren_WF (env : FloatEnv) (shape : AsteroidShape) (r : HitRolls)
    (x c : Asteroid) (hx : x.WF) (hc : c ∈ splitChildren env shape r x) :
    (x.size = 2 ∨ x.size = 4) ∧ c.size = x.size / 2 ∧ c.position = x.position ∧ c.WF := by
  unfold splitChildren at hc
  by_cases hbig : x.GetSize > 1
  · rw [if_pos hbig] at hc
    have hsz : x.size = 2 ∨ x.size = 4 := by
      rcases hx.1 with h | h | h
      · rw [Asteroid.GetSize, h] at hbig; exact absurd hbig (by decide)
      · exact Or.inl h
      · exact Or.inr h
    have hchild : ∀ (rr : AsteroidRolls) (s : ℚ),
        (splitChild env shape rr x s).size = x.size / 2 ∧
          (splitChild env shape rr x s).position = x.position ∧
          (splitChild env shape rr x s).WF := by
      intro rr s
      have hd : (splitChild env shape rr x s).baseDamage =
          (MakeAsteroid C_WIDTH C_HEIGHT shape rr).baseDamage := rfl
      have hs : (splitChild env shape rr x s).size = Int.tdiv x.size 2 := rfl
      have hdiv : Int.tdiv x.size 2 = x.size / 2 := by
        rcases hsz with h | h <;> rw [h] <;> rfl
      refine ⟨hs.trans hdiv, rfl, ?_, ?_⟩
      · rw [hs]
        rcases hsz with h | h <;> rw [h]
        · exact Or.inl rfl
        · exact Or.inr (Or.inl rfl)
      · rw [hd]
        exact (MakeAsteroid_WF C_WIDTH C_HEIGHT shape rr).2
    simp only [List.mem_cons, List.mem_singleton, List.not_mem_nil, or_false] at hc
    rcases hc with rfl | rfl
    · exact ⟨hsz, hchild _ _⟩
    · exact ⟨hsz, hchild _ _⟩
  · rw [if_neg hbig] at hc
    exact absurd hc (List.not_mem_nil c)

theorem AllWF_map_IncreaseSpeed (xs : List Asteroid) (q : ℚ) (h : AllWF xs) :
    AllWF (xs.map (fun x => x.IncreaseSpeed q)) := by
  intro y hy
  rcases List.mem_map.mp hy with ⟨x, hx, rfl⟩
  exact h x hx

theorem resolveHit_AllWF (env : FloatEnv) (r : HitRolls) (pit ait : Nat) (a a1 : Application)
    (h : AllWF a.asteroids) (hres : resolveHit env r pit ait a = some a1) :
    AllWF a1.asteroids := by
  rcases resolveHit_eq_some env r pit ait a a1 hres with ⟨x, _, hx, _, _⟩
  have hbase : AllWF (a.asteroids.eraseIdx ait ++ splitChildren env a.currentShape r x) := by
    intro y hy
    rcases List.mem_append.mp hy with hy | hy
    · exact h y (List.mem_of_mem_eraseIdx hy)
    · exact (splitChildren_WF env a.currentShape r x y (h x (List.getElem?_mem hx)) hy).2.2.2
  rcases (resolveHit_collections env r pit ait a a1 x hx hres).1 with hc | hc
  · rw [hc]; exact hbase
  · rw [hc]; exact AllWF_map_IncreaseSpeed _ _ hbase

theorem projectileStep_AllWF (env : FloatEnv) (r : HitRolls) (pit pit1 : Nat)
    (a a1 : Application) (h : AllWF a.asteroids)
    (hs : projectileStep env r pit a = some (a1, pit1)) : AllWF a1.asteroids := by
  unfold projectileStep at hs
  split at hs
  · exact absurd hs (by simp)
  · split at hs
    · cases hs; exact h
    · rename_i ait _
      rw [Option.map_eq_some'] at hs
      rcases hs with ⟨a2, hres, heq⟩
      have h1 : a2 = a1 := congrArg Prod.fst heq
      subst h1
      exact resolveHit_AllWF env r pit ait a a2 h hres

theorem collisionLoop_AllWF (env : FloatEnv) (rolls : Nat → HitRolls) (n k pit : Nat)
    (a a1 : Application) (h : AllWF a.asteroids)
    (hs : collisionLoop env rolls n k pit a = some a1) : AllWF a1.asteroids := by
  induction n generalizing k pit a with
  | zero =>
    simp only [collisionLoop, Option.some.injEq] at hs
    rw [← hs]; exact h
  | succ n ih =>
    simp only [collisionLoop] at hs
    split at hs
    · exact absurd hs (by simp)
    · rename_i a2 pit2 hstep
      exact ih (k + 1) pit2 a2 (projectileStep_AllWF env (rolls k) pit pit2 a a2 h hstep) hs

theorem Update_WF (w h : Int) (x : Asteroid) (dt : ℚ) (hx : x.WF) :
    (Asteroid.Update w h x dt).1.WF := by
  unfold Asteroid.Update
  simp only
  split <;> exact hx

theorem shipCollisionLoop_AllWF (dt : ℚ) (xs : List Asteroid) (s : PlayerShip)
    (h : AllWF xs) : AllWF (shipCollisionLoop dt xs s).1 := by
  induction xs generalizing s with
  | nil => intro y hy; exact absurd hy (List.not_mem_nil y)
  | cons x rest ih =>
    have hrest : AllWF rest := fun y hy => h y (List.mem_cons_of_mem x hy)
    simp only [shipCollisionLoop]
    split
    · exact ih _ hrest
    · split
      · exact ih _ hrest
      · intro y hy
        rcases List.mem_cons.mp hy with rfl | hy
        · exact Update_WF _ _ x dt (h x (List.mem_cons_self x rest))
        · exact ih s hrest y hy

theorem weaponSwitch_rest (k : Bool) (a : Application) :
    (weaponSwitch k a).asteroids = a.asteroids ∧ (weaponSwitch k a).player = a.player ∧
      (weaponSwitch k a).shotTimer = a.shotTimer := by
  unfold weaponSwitch
  split <;> exact ⟨rfl, rfl, rfl⟩

theorem shooting_rest (env : FloatEnv) (dt : ℚ) (sp : Bool) (a a1 : Application) (n : Nat)
    (h : shooting env dt sp a = some (a1, n)) :
    a1.asteroids = a.asteroids ∧ a1.player = a.player ∧ a1.currentWeapon = a.currentWeapon ∧
      a1.powerUps = a.powerUps ∧ a1.score = a.score := by
  unfold shooting at h
  split at h
  · rw [Option.map_eq_some'] at h
    rcases h with ⟨r, _, heq⟩
    have h1 := congrArg Prod.fst heq
    simp only at h1
    rw [← h1]
    exact ⟨rfl, rfl, rfl, rfl, rfl⟩
  · split at h
    · cases h; exact ⟨rfl, rfl, rfl, rfl, rfl⟩
    · simp only at h
      split at h <;> cases h <;> exact ⟨rfl, rfl, rfl, rfl, rfl⟩

theorem restartLogic_AllWF (k : Bool) (tw : Int) (u : ℚ) (a : Application)
    (h : AllWF a.asteroids) : AllWF (restartLogic k tw u a).asteroids := by
  unfold restartLogic
  split
  · intro y hy; exact absurd hy (List.not_mem_nil y)
  · exact h

theorem spawnAsteroids_AllWF (r : AsteroidRolls) (u : ℚ) (a : Application)
    (h : AllWF a.asteroids) : AllWF (spawnAsteroids r u a).asteroids := by
  unfold spawnAsteroids
  split
  · intro y hy
    rcases List.mem_append.mp hy with hy | hy
    · exact h y hy
    · rw [List.mem_singleton] at hy
      rw [hy]; exact MakeAsteroid_WF _ _ _ _
  · exact h

theorem frame_AllWF (env : FloatEnv) (i : FrameInput) (a a1 : Application) (n : Nat)
    (h : AllWF a.asteroids) (hf : frame env i a = some (a1, n)) : AllWF a1.asteroids := by
  unfold frame at hf
  simp only at hf
  split at hf
  · exact absurd hf (by simp)
  · rename_i a6 shots hshoot
    split at hf
    · exact absurd hf (by simp)
    · rename_i a9 hcol
      have h1 := congrArg Prod.fst (Option.some.inj hf)
      simp only at h1
      rw [← h1]
      have h3 : AllWF a6.asteroids := by
        rw [(shooting_rest env i.dt i.keySpace _ a6 shots hshoot).1, (weaponSwitch_rest _ _).1]
        exact restartLogic_AllWF i.keyR i.textureWidth i.restartU _ h
      have h4 := spawnAsteroids_AllWF i.spawnRolls i.spawnU a6 h3
      have h5 : AllWF a9.asteroids :=
        collisionLoop_AllWF env i.hitRolls _ 0 0
          (updateProjectiles i.dt (spawnAsteroids i.spawnRolls i.spawnU a6)) a9 h4 hcol
      exact shipCollisionLoop_AllWF i.dt _ _ h5

theorem run_AllWF (env : FloatEnv) (inputs : List FrameInput) (a a1 : Application)
    (ns : List Nat) (h : AllWF a.asteroids) (hr : run env inputs a = some (a1, ns)) :
    AllWF a1.asteroids := by
  induction inputs generalizing a ns with
  | nil =>
    simp only [run, Option.some.injEq, Prod.mk.injEq] at hr
    rw [← hr.1]; exact h
  | cons i rest ih =>
    simp only [run] at hr
    split at hr
    · exact absurd hr (by simp)
    · rename_i a2 n hfr
      split at hr
      · exact absurd hr (by simp)
      · rename_i a3 ns3 hrun
        have h1 : a3 = a1 := congrArg Prod.fst (Option.some.inj hr)
        subst h1
        exact ih a2 ns3 (frame_AllWF env i a a2 n h hfr) hrun

/-- C6: `MakeAsteroid`, for every shape mode and all rolls, gives an asteroid of size class 1,
2 or 4 whose base damage is 5, 10 or 15 (5 for TRIANGLE, 10 for SQUARE, 15 for PENTAGON); a
split child is only created from a parent of size 2 or 4, gets size parent/2 and again has
such a size and base damage; and in every state reached by a run of frames from a state
whose asteroids have such sizes and base damages (the start state has none), every asteroid
has size class 1, 2 or 4, base damage 5, 10 or 15, `GetRadius() = 16 * size` and
`GetDamage() = baseDamage * size`. -/
theorem C6_asteroid_invariant :
    (∀ (w h : Int) (shape : AsteroidShape) (r : AsteroidRolls),
      (MakeAsteroid w h shape r).WF ∧
      (shape = AsteroidShape.TRIANGLE → (MakeAsteroid w h shape r).baseDamage = 5) ∧
      (shape = AsteroidShape.SQUARE → (MakeAsteroid w h shape r).baseDamage = 10) ∧
      (shape = AsteroidShape.PENTAGON → (MakeAsteroid w h shape r).baseDamage = 15)) ∧
    (∀ (env : FloatEnv) (shape : AsteroidShape) (r : HitRolls) (x c : Asteroid),
      x.WF → c ∈ splitChildren env shape r x →
        (x.size = 2 ∨ x.size = 4) ∧ c.size = x.size / 2 ∧ c.WF) ∧
    (∀ (tw : Int) (u : ℚ), (start tw u).asteroids = []) ∧
    (∀ (env : FloatEnv) (inputs : List FrameInput) (a0 a : Application) (ns : List Nat),
      (∀ x ∈ a0.asteroids, x.WF) → run env inputs a0 = some (a, ns) →
        ∀ x ∈ a.asteroids,
          (x.size = 1 ∨ x.size = 2 ∨ x.size = 4) ∧
          (x.baseDamage = 5 ∨ x.baseDamage = 10 ∨ x.baseDamage = 15) ∧
          x.GetRadius = 16 * (x.size : ℚ) ∧ x.GetDamage = x.baseDamage * x.size) := by
  refine ⟨?_, ?_, fun _ _ => rfl, ?_⟩
  · intro w h shape r
    refine ⟨MakeAsteroid_WF w h shape r, ?_, ?_, ?_⟩ <;> intro hs <;> rw [hs] <;> rfl
  · intro env shape r x c hx hc
    have := splitChildren_WF env shape r x c hx hc
    exact ⟨this.1, this.2.1, this.2.2.2⟩
  · intro env inputs a0 a ns h0 hr x hx
    have := run_AllWF env inputs a0 a ns h0 hr x hx
    exact ⟨this.1, this.2, rfl, rfl⟩

/-- Witness of C6: a square made by the factory, the children of the size-2 square, and the
large pentagon in the state after the frame in which the square was split. -/
theorem C6_asteroid_invariant_witness :
    (MakeAsteroid 1000 1000 AsteroidShape.SQUARE sampleRolls).baseDamage = 10 ∧
    ((mediumSquare.size = 2 ∨ mediumSquare.size = 4) ∧
      (splitChild sampleEnv AsteroidShape.TRIANGLE sampleRolls mediumSquare
        sampleEnv.sinHalf).size = mediumSquare.size / 2 ∧
      (splitChild sampleEnv AsteroidShape.TRIANGLE sampleRolls mediumSquare
        sampleEnv.sinHalf).WF) ∧
    afterSplitFrame.asteroids.length = 3 ∧
    ((largePentagon.size = 1 ∨ largePentagon.size = 2 ∨ largePentagon.size = 4) ∧
      (largePentagon.baseDamage = 5 ∨ largePentagon.baseDamage = 10 ∨
        largePentagon.baseDamage = 15) ∧
      largePentagon.GetRadius = 16 * (largePentagon.size : ℚ) ∧
      largePentagon.GetDamage = largePentagon.baseDamage * largePentagon.size) :=
  ⟨(C6_asteroid_invariant.1 1000 1000 AsteroidShape.SQUARE sampleRolls).2.2.1 rfl,
   C6_asteroid_invariant.2.1 sampleEnv AsteroidShape.TRIANGLE sampleHitRolls mediumSquare
     (splitChild sampleEnv AsteroidShape.TRIANGLE sampleRolls mediumSquare sampleEnv.sinHalf)
     (by decide) (by decide!),
   by decide!,
   C6_asteroid_invariant.2.2.2 sampleEnv [idleFrame] splitWorld afterSplitFrame [0]
     (by decide) (by decide!) largePentagon (by decide!)⟩

/-! ## Fire control (C7) -/

/-- The firing loop with enough fuel: it returns, after `⌊t / interval⌋` passes, with the
timer reduced by as many intervals. -/
theorem fireLoop_spec (shots : List Projectile) (interval : ℚ) (hpos : 0 < interval)
    (fuel : Nat) (t : ℚ) (ps : List Projectile) (n : Nat)
    (hfuel : ⌊t / interval⌋.toNat ≤ fuel) :
    ∃ ps1, fireLoop shots interval fuel t ps n =
      some (t - (⌊t / interval⌋.toNat : ℚ) * interval, ps1, n + ⌊t / interval⌋.toNat) := by
  induction fuel generalizing t ps n with
  | zero =>
    have hk : ⌊t / interval⌋.toNat = 0 := Nat.le_zero.mp hfuel
    have hlt : ¬ t ≥ interval := by
      intro hge
      have h1 : (1 : ℚ) ≤ t / interval := (one_le_div hpos).mpr hge
      have h2 : (1 : ℤ) ≤ ⌊t / interval⌋ := Int.le_floor.mpr (by exact_mod_cast h1)
      have h3 := Int.toNat_of_nonneg (le_trans (by decide) h2)
      omega
    refine ⟨ps, ?_⟩
    simp only [fireLoop, if_neg hlt, hk]
    simp
  | succ fuel ih =>
    by_cases hge : t ≥ interval
    · have h1 : (1 : ℚ) ≤ t / interval := (one_le_div hpos).mpr hge
      have h2 : (1 : ℤ) ≤ ⌊t / interval⌋ := Int.le_floor.mpr (by exact_mod_cast h1)
      have hsub : (t - interval) / interval = t / interval - 1 := by
        field_simp
      have hfl : ⌊(t - interval) / interval⌋ = ⌊t / interval⌋ - 1 := by
        rw [hsub, Int.floor_sub_one]
      have hk : ⌊t / interval⌋.toNat = ⌊(t - interval) / interval⌋.toNat + 1 := by
        rw [hfl]; omega
      rcases ih (t - interval) (ps ++ shots) (n + 1) (by omega) with ⟨ps1, hps1⟩
      refine ⟨ps1, ?_⟩
      simp only [fireLoop, if_pos hge]
      rw [hps1, hk]
      congr 2
      · push_cast; ring
      · congr 1; omega
    · have hlt : t / interval < 1 := (div_lt_one hpos).mpr (not_le.mp hge)
      have h2 : ⌊t / interval⌋ < 1 := Int.floor_lt.mpr (by exact_mod_cast hlt)
      have hk : ⌊t / interval⌋.toNat = 0 := by omega
      refine ⟨ps, ?_⟩
      simp only [fireLoop, if_neg hge, hk]
      simp

theorem GetFireRate_std (p : PlayerShip) (h : p.stdRates) (w : WeaponType) :
    p.GetFireRate w = stdRate w := by
  cases w
  · simp [Ship.GetFireRate, stdRate, h.1]
  · simp [Ship.GetFireRate, stdRate, h.2]

theorem stdRate_pos (w : WeaponType) : 0 < stdRate w := by
  cases w <;> simp [stdRate]

/-- Bounds of `fmodf` for a non-negative value and a positive modulus. -/
theorem fmodf_bounds (x y : ℚ) (hx : 0 ≤ x) (hy : 0 < y) : 0 ≤ fmodf x y ∧ fmodf x y < y := by
  have hq : 0 ≤ x / y := div_nonneg hx (le_of_lt hy)
  have h1 : ((⌊x / y⌋ : ℤ) : ℚ) ≤ x / y := Int.floor_le _
  have h2 : x / y < ((⌊x / y⌋ : ℤ) : ℚ) + 1 := Int.lt_floor_add_one _
  have h1' : ((⌊x / y⌋ : ℤ) : ℚ) * y ≤ x := (le_div_iff₀ hy).mp h1
  have h2' : x < (((⌊x / y⌋ : ℤ) : ℚ) + 1) * y := (div_lt_iff₀ hy).mp h2
  simp only [fmodf, if_pos hq]
  constructor <;> nlinarith

/-- The shooting block for a ship with the constructor's fire rates, a non-negative
accumulator and a non-negative frame time: it returns, the number of firing events is at
most `⌊(shotTimer + dt) * r⌋` for the rate `r` of the current weapon, and afterwards the
accumulator is non-negative and at most one interval. -/
theorem shooting_spec (env : FloatEnv) (dt : ℚ) (sp : Bool) (a : Application)
    (hr : a.player.stdRates) (ht : 0 ≤ a.shotTimer) (hdt : 0 ≤ dt) :
    ∃ a1 n, shooting env dt sp a = some (a1, n) ∧
      (n : ℤ) ≤ ⌊(a.shotTimer + dt) * stdRate a.currentWeapon⌋ ∧
      0 ≤ a1.shotTimer ∧ a1.shotTimer * stdRate a.currentWeapon ≤ 1 := by
  have hrate := GetFireRate_std a.player hr a.currentWeapon
  have hpos := stdRate_pos a.currentWeapon
  have hipos : 0 < 1 / stdRate a.currentWeapon := one_div_pos.mpr hpos
  have hfloor0 : 0 ≤ ⌊(a.shotTimer + dt) * stdRate a.currentWeapon⌋ :=
    Int.floor_nonneg.mpr (mul_nonneg (add_nonneg ht hdt) (le_of_lt hpos))
  unfold shooting
  by_cases hc : (a.player.IsAlive && sp) = true
  · simp only [hc, if_true, hrate]
    have hdiv : (a.shotTimer + dt) / (1 / stdRate a.currentWeapon) =
        (a.shotTimer + dt) * stdRate a.currentWeapon := by
      field_simp
    rcases fireLoop_spec
      (volley env a.player a.currentWeapon
        (a.player.GetSpacing a.currentWeapon * stdRate a.currentWeapon))
      (1 / stdRate a.currentWeapon) hipos
      ⌊(a.shotTimer + dt) / (1 / stdRate a.currentWeapon)⌋.toNat (a.shotTimer + dt)
      a.projectiles 0 (le_refl _) with ⟨ps1, hps1⟩
    rw [hps1]
    simp only [Option.map_some', zero_add]
    refine ⟨_, _, rfl, ?_, ?_, ?_⟩
    · rw [hdiv, Int.toNat_of_nonneg hfloor0]
    · simp only
      rw [hdiv]
      have hcast : ((⌊(a.shotTimer + dt) * stdRate a.currentWeapon⌋.toNat : ℕ) : ℚ) =
          ((⌊(a.shotTimer + dt) * stdRate a.currentWeapon⌋ : ℤ) : ℚ) := by
        have := Int.toNat_of_nonneg hfloor0
        exact_mod_cast this
      rw [hcast]
      have h1 : ((⌊(a.shotTimer + dt) * stdRate a.currentWeapon⌋ : ℤ) : ℚ) ≤
          (a.shotTimer + dt) * stdRate a.currentWeapon := Int.floor_le _
      have : ((⌊(a.shotTimer + dt) * stdRate a.currentWeapon⌋ : ℤ) : ℚ) *
          (1 / stdRate a.currentWeapon) ≤ a.shotTimer + dt := by
        rw [mul_one_div]
        exact (div_le_iff₀ hpos).mpr h1
      linarith
    · simp only
      rw [hdiv]
      have hcast : ((⌊(a.shotTimer + dt) * stdRate a.currentWeapon⌋.toNat : ℕ) : ℚ) =
          ((⌊(a.shotTimer + dt) * stdRate a.currentWeapon⌋ : ℤ) : ℚ) := by
        have := Int.toNat_of_nonneg hfloor0
        exact_mod_cast this
      rw [hcast]
      have h2 : (a.shotTimer + dt) * stdRate a.currentWeapon <
          ((⌊(a.shotTimer + dt) * stdRate a.currentWeapon⌋ : ℤ) : ℚ) + 1 :=
        Int.lt_floor_add_one _
      have hne : stdRate a.currentWeapon ≠ 0 := ne_of_gt hpos
      have : (a.shotTimer + dt - ((⌊(a.shotTimer + dt) * stdRate a.currentWeapon⌋ : ℤ) : ℚ) *
          (1 / stdRate a.currentWeapon)) * stdRate a.currentWeapon =
          (a.shotTimer + dt) * stdRate a.currentWeapon -
            ((⌊(a.shotTimer + dt) * stdRate a.currentWeapon⌋ : ℤ) : ℚ) := by
        field_simp
      rw [this]
      linarith
  · simp only [hc, Bool.false_eq_true, if_false]
    by_cases hsp : sp = true
    · simp only [hsp, Bool.not_true, Bool.false_eq_true, if_false, hrate]
      by_cases hgt : a.shotTimer > 1 / stdRate a.currentWeapon
      · rw [if_pos hgt]
        have hb := fmodf_bounds a.shotTimer (1 / stdRate a.currentWeapon) ht hipos
        refine ⟨_, 0, rfl, by exact_mod_cast hfloor0, hb.1, ?_⟩
        have := (lt_div_iff₀ hpos).mp hb.2
        exact le_of_lt this
      · rw [if_neg hgt]
        refine ⟨a, 0, rfl, by exact_mod_cast hfloor0, ht, ?_⟩
        exact (le_div_iff₀ hpos).mp (not_lt.mp hgt)
    · simp only [Bool.not_eq_true] at hsp
      simp only [hsp, Bool.not_false, if_true]
      exact ⟨_, 0, rfl, by exact_mod_cast hfloor0, le_refl _, by simp⟩

/-! ### The fire-control state across the other blocks of a frame -/

theorem TakeDamage_stdRates (p : PlayerShip) (d : Int) (h : p.stdRates) :
    (p.TakeDamage d).stdRates := by
  unfold PlayerShip.TakeDamage Ship.TakeDamage PlayerShip.stdRates
  simp only
  split
  · exact h
  · split <;> exact h

theorem applyPowerUp_stdRates (t : PowerUpType) (p : PlayerShip) (h : p.stdRates) :
    (applyPowerUp t p).stdRates := by
  cases t
  · exact TakeDamage_stdRates p (-20) h
  · exact h

theorem Update_stdRates (p : PlayerShip) (k : MoveKeys) (dt : ℚ) (h : p.stdRates) :
    (p.Update k dt).stdRates := by
  unfold PlayerShip.Update
  simp only
  split
  · split
    · split <;> exact h
    · exact h
  · exact h

theorem powerUpLoop_stdRates (dt : ℚ) (xs : List PowerUp) (p : PlayerShip) (h : p.stdRates) :
    (powerUpLoop dt xs p).2.stdRates := by
  induction xs generalizing p with
  | nil => exact h
  | cons x rest ih =>
    rw [powerUpLoop_cons]
    split
    · exact ih p h
    · split
      · exact ih _ (applyPowerUp_stdRates x.type p h)
      · exact ih p h

theorem shipCollisionLoop_stdRates (dt : ℚ) (xs : List Asteroid) (p : PlayerShip)
    (h : p.stdRates) : (shipCollisionLoop dt xs p).2.stdRates := by
  induction xs generalizing p with
  | nil => exact h
  | cons x rest ih =>
    simp only [shipCollisionLoop]
    split
    · exact ih _ (TakeDamage_stdRates p x.GetDamage h)
    · split <;> exact ih p h

theorem restartLogic_fire (k : Bool) (tw : Int) (u : ℚ) (a : Application)
    (h : a.player.stdRates) :
    (restartLogic k tw u a).player.stdRates ∧
      (restartLogic k tw u a).shotTimer = a.shotTimer ∧
      (restartLogic k tw u a).currentWeapon = a.currentWeapon := by
  unfold restartLogic
  split
  · exact ⟨⟨rfl, rfl⟩, rfl, rfl⟩
  · exact ⟨h, rfl, rfl⟩

theorem weaponSwitch_weapon (k : Bool) (a b : Application)
    (h : a.currentWeapon = b.currentWeapon) :
    (weaponSwitch k a).currentWeapon = (weaponSwitch k b).currentWeapon := by
  unfold weaponSwitch
  cases k <;> simp [h]

theorem spawnAsteroids_fire (r : AsteroidRolls) (u : ℚ) (a : Application) :
    (spawnAsteroids r u a).player = a.player ∧
      (spawnAsteroids r u a).shotTimer = a.shotTimer ∧
      (spawnAsteroids r u a).currentWeapon = a.currentWeapon := by
  unfold spawnAsteroids
  split <;> exact ⟨rfl, rfl, rfl⟩

theorem addScore_fire (d : Int) (a : Application) :
    (addScore d a).player = a.player ∧ (addScore d a).shotTimer = a.shotTimer ∧
      (addScore d a).currentWeapon = a.currentWeapon := by
  by_cases h : a.score + d ≥ a.scoreToNextLevel <;> simp [addScore, h, ModifyAllAsteroids]

theorem dropPowerUp_fire (r : HitRolls) (pos : Vector2) (a : Application) :
    (dropPowerUp r pos a).player = a.player ∧ (dropPowerUp r pos a).shotTimer = a.shotTimer ∧
      (dropPowerUp r pos a).currentWeapon = a.currentWeapon := by
  by_cases h : r.drop < 5 <;> simp [dropPowerUp, h]

theorem projectileStep_fire (env : FloatEnv) (r : HitRolls) (pit pit1 : Nat)
    (a a1 : Application) (hs : projectileStep env r pit a = some (a1, pit1)) :
    a1.player = a.player ∧ a1.shotTimer = a.shotTimer ∧ a1.currentWeapon = a.currentWeapon := by
  unfold projectileStep at hs
  split at hs
  · exact absurd hs (by simp)
  · split at hs
    · cases hs; exact ⟨rfl, rfl, rfl⟩
    · rename_i ait _
      rw [Option.map_eq_some'] at hs
      rcases hs with ⟨a2, hres, heq⟩
      have h1 : a2 = a1 := congrArg Prod.fst heq
      subst h1
      rcases resolveHit_eq_some env r pit ait a a2 hres with ⟨x, y, _, _, rfl⟩
      have hd := dropPowerUp_fire r x.GetPosition
        (addScore y.GetDamage (eraseHit env r pit ait x a))
      have hsc := addScore_fire y.GetDamage (eraseHit env r pit ait x a)
      exact ⟨hd.1.trans hsc.1, hd.2.1.trans hsc.2.1, hd.2.2.trans hsc.2.2⟩

theorem collisionLoop_fire (env : FloatEnv) (rolls : Nat → HitRolls) (n k pit : Nat)
    (a a1 : Application) (hs : collisionLoop env rolls n k pit a = some a1) :
    a1.player = a.player ∧ a1.shotTimer = a.shotTimer ∧ a1.currentWeapon = a.currentWeapon := by
  induction n generalizing k pit a with
  | zero =>
    simp only [collisionLoop, Option.some.injEq] at hs
    rw [← hs]; exact ⟨rfl, rfl, rfl⟩
  | succ n ih =>
    simp only [collisionLoop] at hs
    split at hs
    · exact absurd hs (by simp)
    · rename_i a2 pit2 hstep
      have h1 := projectileStep_fire env (rolls k) pit pit2 a a2 hstep
      have h2 := ih (k + 1) pit2 a2 hs
      exact ⟨h2.1.trans h1.1, h2.2.1.trans h1.2.1, h2.2.2.trans h1.2.2⟩

theorem shooting_shots (env : FloatEnv) (dt : ℚ) (sp : Bool) (a a1 : Application) (n : Nat)
    (hr : a.player.stdRates) (ht : 0 ≤ a.shotTimer) (hdt : 0 ≤ dt)
    (h : shooting env dt sp a = some (a1, n)) :
    (n : ℤ) ≤ ⌊(a.shotTimer + dt) * stdRate a.currentWeapon⌋ ∧
      0 ≤ a1.shotTimer ∧ a1.shotTimer * stdRate a.currentWeapon ≤ 1 := by
  rcases shooting_spec env dt sp a hr ht hdt with ⟨a2, m, hsome, hb⟩
  rw [hsome] at h
  have h1 : a2 = a1 := congrArg Prod.fst (Option.some.inj h)
  have h2 : m = n := congrArg Prod.snd (Option.some.inj h)
  subst h1; subst h2
  exact hb

/-- The number of firing events is at most `⌊y⌋ + c` when the accumulator accounts for less
than `c` intervals. -/
theorem floor_add_le (x y : ℚ) (c : ℤ) (n : ℤ) (hn : n ≤ ⌊x + y⌋) (hx : x < c) :
    n ≤ ⌊y⌋ + c := by
  have h1 : y < ((⌊y⌋ : ℤ) : ℚ) + 1 := Int.lt_floor_add_one y
  have h2 : ⌊x + y⌋ < ⌊y⌋ + c + 1 := by
    rw [Int.floor_lt]
    push_cast
    linarith
  omega

/-- One frame from a state that satisfies the fire-control invariant. -/
theorem frame_fire (env : FloatEnv) (i : FrameInput) (a a1 : Application) (n : Nat)
    (hinv : a.FireInv) (hdt : 0 ≤ i.dt) (hf : frame env i a = some (a1, n)) :
    a1.FireInv ∧
    (n : ℤ) ≤ ⌊i.dt * stdRate (weaponSwitch i.keyTab a).currentWeapon⌋ + 2 ∧
    (i.keyTab = false ∨ (weaponSwitch i.keyTab a).currentWeapon = WeaponType.LASER →
      (n : ℤ) ≤ ⌊i.dt * stdRate (weaponSwitch i.keyTab a).currentWeapon⌋ + 1) := by
  rcases hinv with ⟨hrates, ht0, ht1⟩
  unfold frame at hf
  simp only at hf
  split at hf
  · exact absurd hf (by simp)
  · rename_i a6 shots hshoot
    split at hf
    · exact absurd hf (by simp)
    · rename_i a9 hcol
      have h1 : asteroidShipCollisions i.dt (powerUpPass i.dt a9) = a1 :=
        congrArg Prod.fst (Option.some.inj hf)
      have h2 : shots = n := congrArg Prod.snd (Option.some.inj hf)
      subst h2
      -- the state that reaches the shooting block
      have hre := restartLogic_fire i.keyR i.textureWidth i.restartU
        { a with spawnTimer := a.spawnTimer + i.dt,
                 player := a.player.Update i.move i.dt }
        (Update_stdRates a.player i.move i.dt hrates)
      have hw5 := weaponSwitch_rest i.keyTab
        (shapeSwitch i.key1 i.key2 i.key3 i.key4
          (restartLogic i.keyR i.textureWidth i.restartU
            { a with spawnTimer := a.spawnTimer + i.dt,
                     player := a.player.Update i.move i.dt }))
      have hweap := weaponSwitch_weapon i.keyTab
        (shapeSwitch i.key1 i.key2 i.key3 i.key4
          (restartLogic i.keyR i.textureWidth i.restartU
            { a with spawnTimer := a.spawnTimer + i.dt,
                     player := a.player.Update i.move i.dt })) a hre.2.2
      have htimer : (shapeSwitch i.key1 i.key2 i.key3 i.key4
          (restartLogic i.keyR i.textureWidth i.restartU
            { a with spawnTimer := a.spawnTimer + i.dt,
                     player := a.player.Update i.move i.dt })).shotTimer = a.shotTimer :=
        hre.2.1
      have hsh := shooting_shots env i.dt i.keySpace _ a6 shots
        (by rw [hw5.2.1]; exact hre.1)
        (by rw [hw5.2.2, htimer]; exact ht0) hdt hshoot
      have hrest6 := shooting_rest env i.dt i.keySpace _ a6 shots hshoot
      rw [hweap, hw5.2.2] at hsh
      rw [htimer] at hsh
      -- the blocks after the shooting block
      have hcl := collisionLoop_fire env i.hitRolls _ 0 0
        (updateProjectiles i.dt (spawnAsteroids i.spawnRolls i.spawnU a6)) a9 hcol
      have hsp := spawnAsteroids_fire i.spawnRolls i.spawnU a6
      have h9p : a9.player.stdRates := by
        rw [hcl.1]
        show (spawnAsteroids i.spawnRolls i.spawnU a6).player.stdRates
        rw [hsp.1, hrest6.2.1, hw5.2.1]
        exact hre.1
      have h9t : a9.shotTimer = a6.shotTimer := hcl.2.1.trans hsp.2.1
      have h9w : a9.currentWeapon = (weaponSwitch i.keyTab a).currentWeapon := by
        rw [hcl.2.2]
        show (spawnAsteroids i.spawnRolls i.spawnU a6).currentWeapon = _
        rw [hsp.2.2, hrest6.2.2.1, hweap]
      have hinv1 : a1.FireInv := by
        rw [← h1]
        refine ⟨?_, ?_, ?_⟩
        · exact shipCollisionLoop_stdRates i.dt _ _ (powerUpLoop_stdRates i.dt _ _ h9p)
        · show 0 ≤ a9.shotTimer
          rw [h9t]; exact hsh.2.1
        · show a9.shotTimer * stdRate a9.currentWeapon ≤ 1
          rw [h9t, h9w]; exact hsh.2.2
      have hsum : (a.shotTimer + i.dt) * stdRate (weaponSwitch i.keyTab a).currentWeapon =
          a.shotTimer * stdRate (weaponSwitch i.keyTab a).currentWeapon +
            i.dt * stdRate (weaponSwitch i.keyTab a).currentWeapon := by ring
      have hn := hsh.1
      rw [hsum] at hn
      have hgen : a.shotTimer * stdRate (weaponSwitch i.keyTab a).currentWeapon < 2 := by
        unfold weaponSwitch
        cases hk : i.keyTab <;> cases hw : a.currentWeapon <;>
          simp only [hw, stdRate, nextWeapon, if_true, if_false, Bool.false_eq_true] at ht1 ⊢ <;>
          linarith
      refine ⟨hinv1, ?_, ?_⟩
      · exact floor_add_le _ _ 2 _ hn (by exact_mod_cast hgen)
      · intro hcase
        have hone : a.shotTimer * stdRate (weaponSwitch i.keyTab a).currentWeapon < 1 ∨
            a.shotTimer * stdRate (weaponSwitch i.keyTab a).currentWeapon = 1 := by
          have hle : a.shotTimer * stdRate (weaponSwitch i.keyTab a).currentWeapon ≤ 1 := by
            rcases hcase with hk | hl
            · unfold weaponSwitch
              simp only [hk, Bool.false_eq_true, if_false]
              exact ht1
            · rw [hl]
              cases hw : a.currentWeapon <;>
                simp only [hw, stdRate] at ht1 ⊢ <;> linarith
          exact lt_or_eq_of_le hle
        rcases hone with hlt | heq
        · exact floor_add_le _ _ 1 _ hn (by exact_mod_cast hlt)
        · rw [heq] at hn
          have : ⌊(1 : ℚ) + i.dt * stdRate (weaponSwitch i.keyTab a).currentWeapon⌋ =
              ⌊i.dt * stdRate (weaponSwitch i.keyTab a).currentWeapon⌋ + 1 := by
            rw [add_comm, Int.floor_add_one]
          omega

theorem run_fire (env : FloatEnv) (inputs : List FrameInput) (a a1 : Application)
    (ns : List Nat) (hinv : a.FireInv) (hdt : ∀ i ∈ inputs, 0 ≤ i.dt)
    (hr : run env inputs a = some (a1, ns)) : a1.FireInv := by
  induction inputs generalizing a ns with
  | nil =>
    simp only [run, Option.some.injEq, Prod.mk.injEq] at hr
    rw [← hr.1]; exact hinv
  | cons i rest ih =>
    simp only [run] at hr
    split at hr
    · exact absurd hr (by simp)
    · rename_i a2 n hfr
      split at hr
      · exact absurd hr (by simp)
      · rename_i a3 ns3 hrun
        have h1 : a3 = a1 := congrArg Prod.fst (Option.some.inj hr)
        subst h1
        exact ih a2 ns3
          (frame_fire env i a a2 n hinv (hdt i (List.mem_cons_self i rest)) hfr).1
          (fun j hj => hdt j (List.mem_cons_of_mem i hj)) hrun

/-- C7 (amended): in every frame of a run that starts with the shot accumulator at 0 and a
ship with the constructor's fire rates, with all frame times non-negative, the number `n` of
firing events of the frame is at most `⌊dt * r⌋ + 2`, where `r` is the fire rate of the
weapon selected in that frame; it is at most `⌊dt * r⌋ + 1` when the weapon is not toggled
in that frame or the toggle selects the laser. -/
theorem C7_fire_bound (env : FloatEnv) (inputs : List FrameInput) (a0 a a1 : Application)
    (ns : List Nat) (i : FrameInput) (n : Nat)
    (h0 : a0.shotTimer = 0) (hr0 : a0.player.stdRates) (hdts : ∀ j ∈ inputs, 0 ≤ j.dt)
    (hrun : run env inputs a0 = some (a, ns)) (hdt : 0 ≤ i.dt)
    (hf : frame env i a = some (a1, n)) :
    (n : ℤ) ≤ ⌊i.dt * a.player.GetFireRate (weaponSwitch i.keyTab a).currentWeapon⌋ + 2 ∧
    (i.keyTab = false ∨ (weaponSwitch i.keyTab a).currentWeapon = WeaponType.LASER →
      (n : ℤ) ≤ ⌊i.dt * a.player.GetFireRate (weaponSwitch i.keyTab a).currentWeapon⌋ + 1) := by
  have hinv0 : a0.FireInv := ⟨hr0, by rw [h0], by rw [h0, zero_mul]; exact zero_le_one⟩
  have hinv := run_fire env inputs a0 a ns hinv0 hdts hrun
  rw [GetFireRate_std a.player hinv.1]
  exact (frame_fire env i a a1 n hinv hdt hf).2

/-- C7 (counterexample to the bound `⌊dt * r⌋ + 1` under weapon toggling): from the start
state, a frame of 3/55 s with the fire key held leaves 3/55 s in the accumulator without
firing (the laser interval is 1/18 s); in the next frame, of 9/220 s, the weapon is toggled
to the bullet weapon (rate 22) and two firing events are emitted, while
`⌊9/220 * 22⌋ + 1 = 1`. -/
theorem C7_toggle_counterexample :
    (start 64 0).shotTimer = 0 ∧ 0 ≤ holdFrame.dt ∧ 0 ≤ toggleFrame.dt ∧
    run sampleEnv [holdFrame] (start 64 0) = some (afterHoldFrame, [0]) ∧
    (weaponSwitch toggleFrame.keyTab afterHoldFrame).currentWeapon = WeaponType.BULLET ∧
    afterHoldFrame.player.GetFireRate WeaponType.BULLET = 22 ∧
    (run sampleEnv [holdFrame, toggleFrame] (start 64 0)).map (fun s => s.2) = some [0, 2] ∧
    (frame sampleEnv toggleFrame afterHoldFrame).map (fun s => s.2) = some 2 ∧
    ¬ ((2 : ℤ) ≤ ⌊toggleFrame.dt * afterHoldFrame.player.GetFireRate
        (weaponSwitch toggleFrame.keyTab afterHoldFrame).currentWeapon⌋ + 1) := by
  decide!

/-- Witness of C7 (amended): after the frame `holdFrame`, the toggling frame emits 2 events
within `⌊dt * r⌋ + 2`, and a second frame `holdFrame` without toggle emits 1 event within
`⌊dt * r⌋ + 1`. -/
theorem C7_fire_bound_witness :
    ((2 : ℕ) : ℤ) ≤ ⌊toggleFrame.dt * afterHoldFrame.player.GetFireRate
        (weaponSwitch toggleFrame.keyTab afterHoldFrame).currentWeapon⌋ + 2 ∧
    ((1 : ℕ) : ℤ) ≤ ⌊holdFrame.dt * afterHoldFrame.player.GetFireRate
        (weaponSwitch holdFrame.keyTab afterHoldFrame).currentWeapon⌋ + 1 :=
  ⟨(C7_fire_bound sampleEnv [holdFrame] (start 64 0) afterHoldFrame
      ((frame sampleEnv toggleFrame afterHoldFrame).getD (afterHoldFrame, 0)).1 [0]
      toggleFrame 2 rfl ⟨rfl, rfl⟩ (by decide!) (by decide!) (by decide!) (by decide!)).1,
   (C7_fire_bound sampleEnv [holdFrame] (start 64 0) afterHoldFrame
      ((frame sampleEnv holdFrame afterHoldFrame).getD (afterHoldFrame, 0)).1 [0]
      holdFrame 1 rfl ⟨rfl, rfl⟩ (by decide!) (by decide!) (by decide!) (by decide!)).2
      (Or.inl rfl)⟩

/-! ## The distance test -/

/-- The exact form of the distance test agrees with the comparison of the square root of
the squared distance, taken in the reals. -/
theorem distLt_iff_sqrt_lt (a b : Vector2) (r : ℚ) :
    distLt a b r = true ↔ Real.sqrt ((distSq a b : ℚ) : ℝ) < (r : ℝ) := by
  simp only [distLt, Bool.and_eq_true, decide_eq_true_eq]
  constructor
  · rintro ⟨hr, hd⟩
    have hr' : (0 : ℝ) < (r : ℝ) := by exact_mod_cast hr
    rw [Real.sqrt_lt' hr']
    have : ((distSq a b : ℚ) : ℝ) < ((r * r : ℚ) : ℝ) := by exact_mod_cast hd
    rw [pow_two]
    exact_mod_cast this
  · intro h
    have hr' : (0 : ℝ) < (r : ℝ) := lt_of_le_of_lt (Real.sqrt_nonneg _) h
    have hr : 0 < r := by exact_mod_cast hr'
    refine ⟨hr, ?_⟩
    rw [Real.sqrt_lt' hr', pow_two] at h
    exact_mod_cast h

end Lab1
